import Mathlib

/-!
Verification development for the Voluum → Supabase synchronization engine
(`data_collector_v2.py`, `data_collector.py`, `voluum_client.py`).

The Python code is shallowly embedded: JSON scalar values become `PyVal`,
raw upstream rows become association lists, pure transformation functions
become Lean functions, exception-raising code returns `Option`/`Except`,
and the paginated fetch loops become well-founded recursions over a finite
upstream feed.  CPython library behaviour that the code relies on
(`datetime.strptime`, `datetime.fromisoformat`, `float(...)`, `str.replace`)
is modelled explicitly below, restricted to the forms the code can meet;
each such model carries a comment describing the modelled subset.
-/

/-- A Python scalar value as it appears in Voluum JSON rows: `None`, a
number, or a string.  Numbers are modelled as rationals (exact arithmetic
stands in for floats; the monetary claims only involve exactly
representable values). -/
inductive PyVal where
  | vnull : PyVal
  | vnum : ℚ → PyVal
  | vstr : String → PyVal
deriving DecidableEq, Repr

/-- A raw upstream row: a JSON object, modelled as an association list of
string keys to scalar values. -/
abbrev RawRecord := List (String × PyVal)

/-- `raw.get(k)` without default: `some v` when the key is present,
`none` when absent (Python returns `None` for an absent key). -/
def rawGet (raw : RawRecord) (k : String) : Option PyVal :=
  match raw.find? (fun p => p.1 = k) with
  | some p => some p.2
  | none => none

/-- `raw.get(k)` collapsing an absent key to `None`, which is how every
modelled call site consumes it. -/
def pyGet (raw : RawRecord) (k : String) : PyVal :=
  (rawGet raw k).getD .vnull

/-- `raw.get(k, dflt)`: the default is used only when the key is absent. -/
def pyGetD (raw : RawRecord) (k : String) (dflt : PyVal) : PyVal :=
  (rawGet raw k).getD dflt

/-- Python truthiness for the modelled scalars: `None`, `0` and `""` are
falsy, everything else is truthy. -/
def pyTruthy : PyVal → Bool
  | .vnull => false
  | .vnum q => q ≠ 0
  | .vstr s => s ≠ ""

/-- Python `a or b`. -/
def pyOr (a b : PyVal) : PyVal := if pyTruthy a then a else b

/-- Numeric value of a decimal digit. -/
def digitVal (c : Char) : Nat := c.toNat - 48

/-- Value of a list of decimal digits, most significant first. -/
def digitsToNat (ds : List Char) : Nat := ds.foldl (fun a c => a * 10 + digitVal c) 0

/-- Leading run of decimal digits and the remainder. -/
def spanDigits (cs : List Char) : List Char × List Char :=
  (cs.takeWhile Char.isDigit, cs.dropWhile Char.isDigit)

/-- Python `str(v)` for the modelled scalars.  `None` renders as `"None"`;
a numeric value is rendered from the rational (an integer renders as its
digits; the exact float rendering is abstracted — it only influences dedup
key strings built from numeric fields, which the claims never exercise). -/
def pyStr : PyVal → String
  | .vnull => "None"
  | .vstr s => s
  | .vnum q => if q.den = 1 then toString q.num else toString q

/-- Exponent part of a Python float literal: empty, or `e`/`E` with an
optional sign and a digit run ending the string. -/
def parseExpPart (sign : ℤ) (mant : ℚ) : List Char → Option ℚ
  | [] => some ((sign : ℚ) * mant)
  | e :: rest =>
    if e = 'e' ∨ e = 'E' then
      let (esign, r2) : ℤ × List Char :=
        match rest with
        | '+' :: r => (1, r)
        | '-' :: r => (-1, r)
        | r => (1, r)
      let (ed, r3) := spanDigits r2
      if ed.isEmpty ∨ ¬ r3.isEmpty then none
      else
        let ev := digitsToNat ed
        some ((sign : ℚ) * mant * (if esign = 1 then ((10 : ℚ) ^ ev) else ((10 : ℚ) ^ ev)⁻¹))
    else none

/-- Core of `float(s)` after whitespace stripping and sign: `digits`,
`digits.digits?`, or `.digits`, with an optional exponent. -/
def parseFloatCore (sign : ℤ) (cs : List Char) : Option ℚ :=
  let (ip, cs1) := spanDigits cs
  match cs1 with
  | '.' :: cs2 =>
    let (fp, cs3) := spanDigits cs2
    if ip.isEmpty ∧ fp.isEmpty then none
    else
      parseExpPart sign ((digitsToNat ip : ℚ) + (digitsToNat fp : ℚ) / ((10 : ℚ) ^ fp.length)) cs3
  | _ =>
    if ip.isEmpty then none else parseExpPart sign (digitsToNat ip : ℚ) cs1

/-- Model of CPython `float(s)` on a string: surrounding whitespace is
stripped, an optional sign precedes a finite decimal literal with optional
fraction and exponent.  Non-finite literals (`inf`, `nan`) and underscore
separators are outside the modelled subset and map to `none` (a raised
`ValueError`). -/
def parseFloatLit (s : String) : Option ℚ :=
  let cs := (s.data.dropWhile Char.isWhitespace).reverse.dropWhile Char.isWhitespace |>.reverse
  match cs with
  | '+' :: r => parseFloatCore 1 r
  | '-' :: r => parseFloatCore (-1) r
  | r => if r.isEmpty then none else parseFloatCore 1 r

/-- Model of Python `float(v)`: numbers pass through, strings are parsed
as float literals, `None` raises `TypeError` (`none`). -/
def pyFloat : PyVal → Option ℚ
  | .vnum q => some q
  | .vstr s => parseFloatLit s
  | .vnull => none

/-- Whether `needle` starts `hay`. -/
def startsWithChars : List Char → List Char → Bool
  | [], _ => true
  | _ :: _, [] => false
  | a :: as, b :: bs => a = b && startsWithChars as bs

/-- Whether `needle` occurs contiguously in `hay` (Python `needle in hay`
for strings; the empty needle is contained in everything). -/
def containsChars (needle : List Char) : List Char → Bool
  | [] => needle.isEmpty
  | b :: bs => startsWithChars needle (b :: bs) || containsChars needle bs

/-- Python `needle in hay` on strings. -/
def strContainsSub (hay needle : String) : Bool := containsChars needle.data hay.data

/-- A parsed wall-clock datetime (no timezone), as produced by
`datetime.strptime`. -/
structure DateTimeM where
  year : Nat
  month : Nat
  day : Nat
  hour : Nat
  minute : Nat
  second : Nat
deriving DecidableEq, Repr

/-- Gregorian leap year. -/
def isLeap (y : Nat) : Bool := (y % 4 = 0 ∧ y % 100 ≠ 0) ∨ y % 400 = 0

/-- Days in a month of a given year. -/
def daysInMonth (y m : Nat) : Nat :=
  if m = 2 then (if isLeap y then 29 else 28)
  else if m = 4 ∨ m = 6 ∨ m = 9 ∨ m = 11 then 30
  else 31

/-- The `datetime(...)` constructor's validation: year 1–9999, month
1–12, day within the month, hour ≤ 23, minute ≤ 59, second ≤ 59. -/
def mkDateTime (y mo d h mi s : Nat) : Option DateTimeM :=
  if 1 ≤ y ∧ y ≤ 9999 ∧ 1 ≤ mo ∧ mo ≤ 12 ∧ 1 ≤ d ∧ d ≤ daysInMonth y mo
      ∧ h ≤ 23 ∧ mi ≤ 59 ∧ s ≤ 59 then
    some ⟨y, mo, d, h, mi, s⟩
  else none

/-- Exactly four digits (the `%Y` directive). -/
def parseY4 : List Char → Option (Nat × List Char)
  | a :: b :: c :: d :: rest =>
    if a.isDigit ∧ b.isDigit ∧ c.isDigit ∧ d.isDigit then
      some (digitVal a * 1000 + digitVal b * 100 + digitVal c * 10 + digitVal d, rest)
    else none
  | _ => none

/-- One- or two-digit numeric directive (`%m`, `%d`, `%I`, `%M`, `%S`):
two digits are taken when their value lies in `[lo2, hi2]`, else a single
digit when its value lies in `[lo1, hi1]` — mirroring the ordered regex
alternations `strptime` compiles for these directives.  Because every such
field in the modelled format is followed by a non-digit literal, no
further backtracking can change the outcome. -/
def parseNumField (lo2 hi2 lo1 hi1 : Nat) : List Char → Option (Nat × List Char)
  | [] => none
  | [a] =>
    if a.isDigit ∧ lo1 ≤ digitVal a ∧ digitVal a ≤ hi1 then some (digitVal a, []) else none
  | a :: b :: rest =>
    if a.isDigit then
      if b.isDigit then
        let v := digitVal a * 10 + digitVal b
        if lo2 ≤ v ∧ v ≤ hi2 then some (v, rest)
        else if lo1 ≤ digitVal a ∧ digitVal a ≤ hi1 then some (digitVal a, b :: rest)
        else none
      else if lo1 ≤ digitVal a ∧ digitVal a ≤ hi1 then some (digitVal a, b :: rest)
      else none
    else none

/-- A literal character of the format string. -/
def expectChar (c : Char) : List Char → Option (List Char)
  | x :: rest => if x = c then some rest else none
  | [] => none

/-- A whitespace run (`strptime` compiles literal whitespace to one or
more whitespace characters). -/
def skipWs1 : List Char → Option (List Char)
  | c :: rest => if c.isWhitespace then some (rest.dropWhile Char.isWhitespace) else none
  | [] => none

/-- The `%p` directive: `AM` or `PM`, case-insensitively; `true` = PM. -/
def parseAmPm : List Char → Option (Bool × List Char)
  | a :: m :: rest =>
    if (a = 'A' ∨ a = 'a') ∧ (m = 'M' ∨ m = 'm') then some (false, rest)
    else if (a = 'P' ∨ a = 'p') ∧ (m = 'M' ∨ m = 'm') then some (true, rest)
    else none
  | _ => none

/-- Model of `datetime.strptime(s, "%Y-%m-%d %I:%M:%S %p")`: the full
input must match, and the matched fields must pass the `datetime`
constructor (after the 12-hour → 24-hour conversion). -/
def strptimeAmPm (s : String) : Option DateTimeM := do
  let cs := s.data
  let (y, cs) ← parseY4 cs
  let cs ← expectChar '-' cs
  let (mo, cs) ← parseNumField 1 12 1 9 cs
  let cs ← expectChar '-' cs
  let (d, cs) ← parseNumField 1 31 1 9 cs
  let cs ← skipWs1 cs
  let (h12, cs) ← parseNumField 1 12 1 9 cs
  let cs ← expectChar ':' cs
  let (mi, cs) ← parseNumField 0 59 0 9 cs
  let cs ← expectChar ':' cs
  let (sec, cs) ← parseNumField 0 61 0 9 cs
  let cs ← skipWs1 cs
  let (isPM, cs) ← parseAmPm cs
  if cs.isEmpty then
    let h := if isPM then (if h12 = 12 then 12 else h12 + 12)
             else (if h12 = 12 then 0 else h12)
    mkDateTime y mo d h mi sec
  else none

/-- A parsed datetime with microseconds and an optional UTC offset in
seconds, as produced by `datetime.fromisoformat`. -/
structure AwareDT where
  dt : DateTimeM
  micro : Nat
  tzoff : Option ℤ
deriving DecidableEq, Repr

/-- Exactly two digits. -/
def parse2Digits : List Char → Option (Nat × List Char)
  | a :: b :: rest =>
    if a.isDigit ∧ b.isDigit then some (digitVal a * 10 + digitVal b, rest) else none
  | _ => none

/-- The fractional-seconds part of an ISO time: exactly 3 or 6 digits,
scaled to microseconds. -/
def parseIsoFrac (cs : List Char) : Option Nat :=
  if cs.length = 3 ∧ cs.all Char.isDigit then some (digitsToNat cs * 1000)
  else if cs.length = 6 ∧ cs.all Char.isDigit then some (digitsToNat cs)
  else none

/-- `HH[:MM[:SS[.fff or .ffffff]]]`, consuming the whole list — the
time-component parser `fromisoformat` uses both for the time of day and
for a UTC offset body. -/
def parseHMSF (cs : List Char) : Option (Nat × Nat × Nat × Nat) := do
  let (h, r1) ← parse2Digits cs
  match r1 with
  | [] => some (h, 0, 0, 0)
  | ':' :: r2 => do
    let (mi, r3) ← parse2Digits r2
    match r3 with
    | [] => some (h, mi, 0, 0)
    | ':' :: r4 => do
      let (s, r5) ← parse2Digits r4
      match r5 with
      | [] => some (h, mi, s, 0)
      | '.' :: r6 => do
        let f ← parseIsoFrac r6
        some (h, mi, s, f)
      | _ => none
    | _ => none
  | _ => none

/-- `YYYY-MM-DD` as exactly ten characters. -/
def parseIsoDate : List Char → Option (Nat × Nat × Nat)
  | [y1, y2, y3, y4, s1, m1, m2, s2, d1, d2] =>
    if y1.isDigit ∧ y2.isDigit ∧ y3.isDigit ∧ y4.isDigit ∧ s1 = '-'
        ∧ m1.isDigit ∧ m2.isDigit ∧ s2 = '-' ∧ d1.isDigit ∧ d2.isDigit then
      some (digitVal y1 * 1000 + digitVal y2 * 100 + digitVal y3 * 10 + digitVal y4,
            digitVal m1 * 10 + digitVal m2,
            digitVal d1 * 10 + digitVal d2)
    else none
  | _ => none

/-- Validation performed by the `datetime`/`timezone` constructors on the
parsed ISO components: calendar validity plus a UTC offset strictly
between minus and plus 24 hours. -/
def mkAware (y mo d h mi s f : Nat) (off : Option ℤ) : Option AwareDT :=
  match mkDateTime y mo d h mi s with
  | none => none
  | some dt =>
    match off with
    | some o => if -86400 < o ∧ o < 86400 then some ⟨dt, f, some o⟩ else none
    | none => some ⟨dt, f, none⟩

/-- Model of CPython's (C-accelerated, pre-3.11) `datetime.fromisoformat`:
`YYYY-MM-DD[*HH[:MM[:SS[.fff or .ffffff]]][±HH:MM[:SS]]]` where `*` is any
single separator character, the offset body must be 5 or 8 characters, and
the offset position is the first `+` or `-` of the time part.  Sub-second
UTC offsets are outside the modelled subset. -/
def fromisoformatPy (s : String) : Option AwareDT := do
  let cs := s.data
  if cs.length < 10 then none
  else
    let (y, mo, d) ← parseIsoDate (cs.take 10)
    match cs.drop 10 with
    | [] => mkAware y mo d 0 0 0 0 none
    | _sep :: tcs =>
      if tcs.isEmpty then none
      else
        match tcs.findIdx? (fun c => c = '+' || c = '-') with
        | none => do
          let (h, mi, sec, f) ← parseHMSF tcs
          mkAware y mo d h mi sec f none
        | some p => do
          let (h, mi, sec, f) ← parseHMSF (tcs.take p)
          let sign : ℤ := if tcs.get? p = some '-' then -1 else 1
          let tzcs := tcs.drop (p + 1)
          if tzcs.length = 5 ∨ tzcs.length = 8 then do
            let (th, tm, ts, _) ← parseHMSF tzcs
            mkAware y mo d h mi sec f (some (sign * ((th : ℤ) * 3600 + tm * 60 + ts)))
          else none

/-- Two-digit zero-padded decimal. -/
def pad2 (n : Nat) : String := if n < 10 then "0" ++ toString n else toString n

/-- Four-digit zero-padded decimal. -/
def pad4 (n : Nat) : String :=
  if n < 10 then "000" ++ toString n
  else if n < 100 then "00" ++ toString n
  else if n < 1000 then "0" ++ toString n
  else toString n

/-- Six-digit zero-padded decimal. -/
def pad6 (n : Nat) : String :=
  if n < 10 then "00000" ++ toString n
  else if n < 100 then "0000" ++ toString n
  else if n < 1000 then "000" ++ toString n
  else if n < 10000 then "00" ++ toString n
  else if n < 100000 then "0" ++ toString n
  else toString n

/-- `datetime.isoformat()` of a naive datetime with zero microseconds. -/
def isoformatDT (d : DateTimeM) : String :=
  pad4 d.year ++ "-" ++ pad2 d.month ++ "-" ++ pad2 d.day ++ "T"
    ++ pad2 d.hour ++ ":" ++ pad2 d.minute ++ ":" ++ pad2 d.second

/-- Rendering of a UTC offset in `isoformat()`: sign, `HH:MM`, and `:SS`
only when the offset has a sub-minute part. -/
def offsetToStr (o : ℤ) : String :=
  let sgn := if o < 0 then "-" else "+"
  let a := o.natAbs
  sgn ++ pad2 (a / 3600) ++ ":" ++ pad2 ((a % 3600) / 60)
    ++ (if a % 60 ≠ 0 then ":" ++ pad2 (a % 60) else "")

/-- `datetime.isoformat()` of a `fromisoformat` result: microseconds are
printed only when nonzero, the offset only when aware. -/
def isoformatAware (a : AwareDT) : String :=
  isoformatDT a.dt ++ (if a.micro ≠ 0 then "." ++ pad6 a.micro else "")
    ++ (match a.tzoff with
        | none => ""
        | some o => offsetToStr o)

/-- Python `s.replace("Z", "+00:00")`: every `Z` is replaced. -/
def replaceZ (s : String) : String :=
  ⟨s.data.foldr
    (fun c acc => if c = 'Z' then '+' :: '0' :: '0' :: ':' :: '0' :: '0' :: acc else c :: acc)
    []⟩

/-- `VoluumLiveCollector._parse_timestamp` on a string argument: empty →
`None`; else try the AM/PM format and render ISO; else try
`fromisoformat` after the `Z` replacement and render ISO; else return the
input unchanged (both `except` arms are bare). -/
def parseTimestampStr (ts : String) : Option String :=
  if ts = "" then none
  else
    match strptimeAmPm ts with
    | some dt => some (isoformatDT dt)
    | none =>
      match fromisoformatPy (replaceZ ts) with
      | some a => some (isoformatAware a)
      | none => some ts

/-- `_parse_timestamp` as applied to a `raw.get(...)` value.  A falsy
argument returns `None`; a truthy non-string raises inside both `try`
blocks (`TypeError`, then `AttributeError`), both swallowed by the bare
`except`, so the original value is returned unchanged. -/
def parseTimestampVal (v : PyVal) : PyVal :=
  if pyTruthy v then
    match v with
    | .vstr s =>
      match parseTimestampStr s with
      | some r => .vstr r
      | none => .vnull
    | other => other
  else .vnull

/-- Destination schema of `VoluumLiveCollector.transform_visit`. -/
structure Visit where
  click_id : PyVal
  external_id : PyVal
  campaign_id : PyVal
  campaign_name : PyVal
  traffic_source_id : PyVal
  traffic_source_name : PyVal
  offer_id : PyVal
  offer_name : PyVal
  affiliate_network_id : PyVal
  affiliate_network_name : PyVal
  lander_id : PyVal
  lander_name : PyVal
  visit_timestamp : PyVal
  country_code : PyVal
  country_name : PyVal
  region : PyVal
  city : PyVal
  device : PyVal
  device_name : PyVal
  brand : PyVal
  model : PyVal
  os : PyVal
  os_version : PyVal
  browser : PyVal
  browser_version : PyVal
  connection_type : PyVal
  isp : PyVal
  mobile_carrier : PyVal
  ip : PyVal
  custom_var_1 : PyVal
  custom_var_2 : PyVal
  custom_var_3 : PyVal
  custom_var_4 : PyVal
  custom_var_5 : PyVal
  custom_var_6 : PyVal
  custom_var_7 : PyVal
  custom_var_8 : PyVal
  custom_var_9 : PyVal
  custom_var_10 : PyVal
  referrer : PyVal
  user_agent : PyVal
  raw_data : RawRecord
deriving DecidableEq, Repr

/-- `VoluumLiveCollector.transform_visit`: pure field renaming with one
timestamp parse; never raises. -/
def transformVisit (raw : RawRecord) : Visit :=
  { click_id := pyGet raw "clickId"
    external_id := pyGet raw "externalId"
    campaign_id := pyGet raw "campaignId"
    campaign_name := pyGet raw "campaignName"
    traffic_source_id := pyGet raw "trafficSourceId"
    traffic_source_name := pyGet raw "trafficSourceName"
    offer_id := pyGet raw "offerId"
    offer_name := pyGet raw "offerName"
    affiliate_network_id := pyGet raw "affiliateNetworkId"
    affiliate_network_name := pyGet raw "affiliateNetworkName"
    lander_id := pyGet raw "landerId"
    lander_name := pyGet raw "landerName"
    visit_timestamp := parseTimestampVal (pyGet raw "timestamp")
    country_code := pyGet raw "countryCode"
    country_name := pyGet raw "countryName"
    region := pyGet raw "region"
    city := pyGet raw "city"
    device := pyGet raw "device"
    device_name := pyGet raw "deviceName"
    brand := pyGet raw "brand"
    model := pyGet raw "model"
    os := pyGet raw "os"
    os_version := pyGet raw "osVersion"
    browser := pyGet raw "browser"
    browser_version := pyGet raw "browserVersion"
    connection_type := pyGet raw "connectionType"
    isp := pyGet raw "isp"
    mobile_carrier := pyGet raw "mobileCarrier"
    ip := pyGet raw "ip"
    custom_var_1 := pyGet raw "customVariable1"
    custom_var_2 := pyGet raw "customVariable2"
    custom_var_3 := pyGet raw "customVariable3"
    custom_var_4 := pyGet raw "customVariable4"
    custom_var_5 := pyGet raw "customVariable5"
    custom_var_6 := pyGet raw "customVariable6"
    custom_var_7 := pyGet raw "customVariable7"
    custom_var_8 := pyGet raw "customVariable8"
    custom_var_9 := pyGet raw "customVariable9"
    custom_var_10 := pyGet raw "customVariable10"
    referrer := pyGet raw "referrer"
    user_agent := pyGet raw "userAgent"
    raw_data := raw }

/-- Destination schema of `VoluumLiveCollector.transform_click`. -/
structure Click where
  click_id : PyVal
  external_id : PyVal
  campaign_id : PyVal
  campaign_name : PyVal
  offer_id : PyVal
  offer_name : PyVal
  lander_id : PyVal
  lander_name : PyVal
  click_timestamp : PyVal
  country_code : PyVal
  country_name : PyVal
  device : PyVal
  os : PyVal
  browser : PyVal
  ip : PyVal
  raw_data : RawRecord
deriving DecidableEq, Repr

/-- `VoluumLiveCollector.transform_click`. -/
def transformClick (raw : RawRecord) : Click :=
  { click_id := pyGet raw "clickId"
    external_id := pyGet raw "externalId"
    campaign_id := pyGet raw "campaignId"
    campaign_name := pyGet raw "campaignName"
    offer_id := pyGet raw "offerId"
    offer_name := pyGet raw "offerName"
    lander_id := pyGet raw "landerId"
    lander_name := pyGet raw "landerName"
    click_timestamp := parseTimestampVal (pyGet raw "timestamp")
    country_code := pyGet raw "countryCode"
    country_name := pyGet raw "countryName"
    device := pyGet raw "device"
    os := pyGet raw "os"
    browser := pyGet raw "browser"
    ip := pyGet raw "ip"
    raw_data := raw }

/-- Destination schema of `VoluumLiveCollector.transform_conversion`. -/
structure Conversion where
  click_id : PyVal
  external_id : PyVal
  transaction_id : PyVal
  campaign_id : PyVal
  campaign_name : PyVal
  offer_id : PyVal
  offer_name : PyVal
  affiliate_network_id : PyVal
  affiliate_network_name : PyVal
  postback_timestamp : PyVal
  visit_timestamp : PyVal
  country_code : PyVal
  country_name : PyVal
  revenue : ℚ
  payout : ℚ
  cost : ℚ
  profit : ℚ
  device : PyVal
  os : PyVal
  browser : PyVal
  connection_type : PyVal
  isp : PyVal
  ip : PyVal
  custom_var_1 : PyVal
  custom_var_2 : PyVal
  custom_var_3 : PyVal
  custom_var_4 : PyVal
  custom_var_5 : PyVal
  raw_data : RawRecord
deriving DecidableEq, Repr

/-- One monetary field of `transform_conversion`:
`float(raw.get(k) or 0)`.  `none` models the `ValueError`/`TypeError`
that `float` raises on a truthy non-numeric value. -/
def moneyField (raw : RawRecord) (k : String) : Option ℚ :=
  pyFloat (pyOr (pyGet raw k) (.vnum 0))

/-- `VoluumLiveCollector.transform_conversion`.  The four `float(...)`
calls are the only operations that can raise, hence the `Option`. -/
def transformConversion (raw : RawRecord) : Option Conversion := do
  let revenue ← moneyField raw "revenue"
  let payout ← moneyField raw "payout"
  let cost ← moneyField raw "cost"
  let profit ← moneyField raw "profit"
  some
    { click_id := pyGet raw "clickId"
      external_id := pyGet raw "externalId"
      transaction_id := pyGet raw "transactionId"
      campaign_id := pyGet raw "campaignId"
      campaign_name := pyGet raw "campaignName"
      offer_id := pyGet raw "offerId"
      offer_name := pyGet raw "offerName"
      affiliate_network_id := pyGet raw "affiliateNetworkId"
      affiliate_network_name := pyGet raw "affiliateNetworkName"
      postback_timestamp := parseTimestampVal (pyGet raw "postbackTimestamp")
      visit_timestamp := parseTimestampVal (pyGet raw "visitTimestamp")
      country_code := pyGet raw "countryCode"
      country_name := pyGet raw "countryName"
      revenue := revenue
      payout := payout
      cost := cost
      profit := profit
      device := pyGet raw "device"
      os := pyGet raw "os"
      browser := pyGet raw "browser"
      connection_type := pyGet raw "connectionType"
      isp := pyGet raw "isp"
      ip := pyGet raw "ip"
      custom_var_1 := pyGet raw "customVariable1"
      custom_var_2 := pyGet raw "customVariable2"
      custom_var_3 := pyGet raw "customVariable3"
      custom_var_4 := pyGet raw "customVariable4"
      custom_var_5 := pyGet raw "customVariable5"
      raw_data := raw }

/-- First-occurrence-wins deduplication with a seen-key set: the
discipline used inline in the sync loops (`seen = set(); ... if key not
in seen: seen.add(key); ...append(...)`), extracted over an arbitrary
key function. -/
def dedupeFirst {α κ : Type} [DecidableEq κ] (key : α → κ) (seen : List κ) :
    List α → List α
  | [] => []
  | r :: rs =>
    if key r ∈ seen then dedupeFirst key seen rs
    else r :: dedupeFirst key (key r :: seen) rs

/-- The `DataCollector.sync_conversions` dedup loop: like `dedupeFirst`
but guarded by key truthiness (`if cid and cid not in seen_ids`), so a
record whose key is falsy is dropped entirely. -/
def dedupeGuarded {α : Type} (key : α → PyVal) (seen : List PyVal) :
    List α → List α
  | [] => []
  | c :: cs =>
    if pyTruthy (key c) ∧ key c ∉ seen then
      c :: dedupeGuarded key (key c :: seen) cs
    else dedupeGuarded key seen cs

/-- The per-page dedup key of `VoluumLiveCollector.sync_conversions`:
the f-string over the raw row's `clickId` and `postbackTimestamp`. -/
def convRawKey (row : RawRecord) : String :=
  pyStr (pyGet row "clickId") ++ "_" ++ pyStr (pyGet row "postbackTimestamp")

/-- One iteration of the per-row loop inside
`VoluumLiveCollector.sync_conversions`'s page processing: campaign-name
substring filter (a non-string name makes `in` raise `TypeError`), the
seen-key dedup, the transform (which can raise), and the truthy
`click_id` gate before appending. -/
def convPageStep (filter : String) (acc : List String × List Conversion)
    (row : RawRecord) : Except Unit (List String × List Conversion) :=
  match pyGetD row "campaignName" (.vstr "") with
  | .vstr name =>
    if strContainsSub name filter then
      if convRawKey row ∈ acc.1 then .ok acc
      else
        match transformConversion row with
        | none => .error ()
        | some conv =>
          .ok (convRawKey row :: acc.1,
               if pyTruthy conv.click_id then acc.2 ++ [conv] else acc.2)
    else .ok acc
  | _ => .error ()

/-- Page processing of `VoluumLiveCollector.sync_conversions`: fold the
per-row step over one fetched page, starting from an empty batch and an
empty seen set (both are re-initialised per page in the source). -/
def buildConvBatch (filter : String) (rows : List RawRecord) :
    Except Unit (List Conversion) :=
  (rows.foldlM (convPageStep filter) ([], [])).map Prod.snd

/-- Observable outcome of one `sync_conversions` run: the number of
fetches issued, the returned running total, the sequence of upserted
batches, and whether the loop ended through its `except` arm. -/
structure ConvRun where
  fetches : Nat
  total : Nat
  batches : List (List Conversion)
  failed : Bool
deriving DecidableEq, Repr

/-- The `while True` pagination loop of
`VoluumLiveCollector.sync_conversions`.  The upstream feed is a finite
list of rows; a fetch at `offset` returns `feed[offset : offset+limit]`.
`failAt offset` models the `try` body raising at that page (fetch or
upsert failure); the bare `except` logs and `break`s, so the run still
produces a normal result with `failed := true`.  An empty page breaks; a
short page is processed and then breaks; a full page advances the offset
by `limit`.  `fuel` bounds the number of iterations to make the loop a
total function; `convSyncLoop` supplies a bound that is never reached
(one more than the rows left in the feed, while each iteration consumes
at least one row or stops). -/
def convSyncLoopGo (filter : String) (feed : List RawRecord) (failAt : Nat → Bool)
    (limit : Nat) : Nat → Nat → ConvRun
  | 0, _ => ⟨0, 0, [], false⟩
  | fuel + 1, offset =>
    if failAt offset then ⟨1, 0, [], true⟩
    else if ((feed.drop offset).take limit).length = 0 then ⟨1, 0, [], false⟩
    else
      match buildConvBatch filter ((feed.drop offset).take limit) with
      | .error _ => ⟨1, 0, [], true⟩
      | .ok batch =>
        if ((feed.drop offset).take limit).length < limit then
          ⟨1, batch.length, if batch.isEmpty then [] else [batch], false⟩
        else
          let rest := convSyncLoopGo filter feed failAt limit fuel (offset + limit)
          ⟨1 + rest.fetches, batch.length + rest.total,
           (if batch.isEmpty then [] else [batch]) ++ rest.batches, rest.failed⟩

/-- The pagination loop of `VoluumLiveCollector.sync_conversions`
starting at `offset`, with adequate fuel. -/
def convSyncLoop (filter : String) (feed : List RawRecord) (failAt : Nat → Bool)
    (limit offset : Nat) : ConvRun :=
  convSyncLoopGo filter feed failAt limit (feed.length + 1 - offset) offset

/-- `VoluumLiveCollector.sync_conversions` as seen by its caller: the
function always returns its running total normally — every raise inside
the loop is swallowed by the bare `except` and turns into a `break`. -/
def syncConversionsV2 (filter : String) (feed : List RawRecord)
    (failAt : Nat → Bool) (limit : Nat) : Except Unit Nat :=
  .ok (convSyncLoop filter feed failAt limit 0).total

/-- The outcome of requesting one campaign in
`sync_live_visits`/`sync_live_clicks`: the fetched rows, or a raise from
the fetch; `upsertOk := false` models the upsert call raising instead. -/
structure CampaignRun where
  fetch : Except Unit (List RawRecord)
  upsertOk : Bool
deriving Repr

/-- Accumulated state of one campaign-scoped sync call: the seen
click-id set shared across campaigns, the running total, and the
sequence of successfully upserted batches. -/
structure LiveAcc (ρ : Type) where
  seen : List PyVal
  total : Nat
  batches : List (List ρ)
deriving Repr

/-- Per-row body of the campaign-scoped sync loops: the shared seen-set
guard on the raw `clickId`, then the transform, then the second truthy
`click_id` gate before appending to the page batch. -/
def liveRow {ρ : Type} (tf : RawRecord → ρ) (cidOf : ρ → PyVal)
    (acc : List PyVal × List ρ) (row : RawRecord) : List PyVal × List ρ :=
  let cid := pyGet row "clickId"
  if pyTruthy cid ∧ cid ∉ acc.1 then
    let rec_ := tf row
    (cid :: acc.1, if pyTruthy (cidOf rec_) then acc.2 ++ [rec_] else acc.2)
  else acc

/-- Per-campaign body shared by `sync_live_visits` and
`sync_live_clicks` (the two methods differ only in endpoint, transform
and destination table).  A raise from the fetch or the upsert is caught:
the loop logs and `continue`s.  Note that the seen-set mutations survive
a failed upsert, exactly as in the source. -/
def liveCampaign {ρ : Type} (tf : RawRecord → ρ) (cidOf : ρ → PyVal)
    (acc : LiveAcc ρ) (c : CampaignRun) : LiveAcc ρ :=
  match c.fetch with
  | .error _ => acc
  | .ok rows =>
    if rows.isEmpty then acc
    else
      let p := rows.foldl (liveRow tf cidOf) (acc.seen, [])
      if p.2.isEmpty then { acc with seen := p.1 }
      else if c.upsertOk then ⟨p.1, acc.total + p.2.length, acc.batches ++ [p.2]⟩
      else { acc with seen := p.1 }

/-- The campaign loop of `sync_live_visits`/`sync_live_clicks`: the seen
set and total are initialised once before the loop and threaded through
every campaign. -/
def liveSync {ρ : Type} (tf : RawRecord → ρ) (cidOf : ρ → PyVal)
    (cs : List CampaignRun) : LiveAcc ρ :=
  cs.foldl (liveCampaign tf cidOf) ⟨[], 0, []⟩

/-- `VoluumLiveCollector.sync_live_visits` over an explicit campaign
list. -/
def syncLiveVisits (cs : List CampaignRun) : LiveAcc Visit :=
  liveSync transformVisit Visit.click_id cs

/-- `VoluumLiveCollector.sync_live_clicks` over an explicit campaign
list. -/
def syncLiveClicks (cs : List CampaignRun) : LiveAcc Click :=
  liveSync transformClick Click.click_id cs

/-- The cached auth session held on the collector/client instance:
`self.token` and `self.token_expires`. -/
structure AuthState where
  token : Option String
  token_expires : Option Nat
deriving DecidableEq, Repr

/-- Outcome of one `_ensure_auth` call: the new instance state, the
returned token, and how many credential-exchange HTTP calls were made
(0 or 1). -/
structure AuthResult where
  state : AuthState
  result : Option String
  exchanges : Nat
deriving DecidableEq, Repr

/-- The shared token-caching logic of
`VoluumLiveCollector._ensure_auth` and
`VoluumClient._ensure_authenticated`: the guard is
`if self.token and self.token_expires and now < self.token_expires`,
under Python truthiness — a stored token must be present *and*
non-empty (an empty string is falsy and triggers a re-exchange), and an
expiry must be present (a `datetime` is always truthy).  On a cache hit
the cached token is returned with no network call; otherwise one
credential exchange happens, the response's token and `now + ttl` are
stored, and the stored token is returned.  `respToken` is the `token`
field of the (successful) exchange response; time is in seconds. -/
def ensureAuthWith (ttl : Nat) (st : AuthState) (now : Nat)
    (respToken : Option String) : AuthResult :=
  match st.token, st.token_expires with
  | some t, some e =>
    if t ≠ "" ∧ now < e then ⟨st, some t, 0⟩
    else ⟨⟨respToken, some (now + ttl)⟩, respToken, 1⟩
  | _, _ => ⟨⟨respToken, some (now + ttl)⟩, respToken, 1⟩

/-- Whether `_ensure_auth`'s guard takes the cached branch: a truthy
(non-empty) token is stored, an expiry is stored, and `now` is strictly
before it. -/
def authCacheHit (st : AuthState) (now : Nat) : Bool :=
  match st.token, st.token_expires with
  | some t, some e => t ≠ "" && decide (now < e)
  | _, _ => false

/-- `VoluumLiveCollector._ensure_auth`: expiry is `now + 3 hours`. -/
def ensureAuthV2 : AuthState → Nat → Option String → AuthResult :=
  ensureAuthWith 10800

/-- `VoluumClient._ensure_authenticated`: the provider token lives 4
hours and is refreshed 30 minutes early, so the stored expiry is
`now + 3.5 hours`. -/
def ensureAuthClient : AuthState → Nat → Option String → AuthResult :=
  ensureAuthWith 12600

/-- A `sync_state` upsert as issued by `DataCollector.update_sync_state`
(the `updated_at` wall-clock column is omitted from the model). -/
structure SyncStateUpd where
  sync_type : String
  last_sync_timestamp : String
  records_synced : Nat
deriving DecidableEq, Repr

/-- The per-row summary record built inside `DataCollector.sync_visits`
for one campaign-grouped report row. -/
structure V1VisitRow where
  visit_id : String
  campaign_id : PyVal
  campaign_name : PyVal
  traffic_source_id : PyVal
  traffic_source_name : PyVal
  visit_timestamp : String
  country_code : PyVal
  cost : ℚ
  revenue : ℚ
  profit : ℚ
  is_conversion : Bool
  raw_data : RawRecord
deriving DecidableEq, Repr

/-- One monetary field of the v1 collector: `float(row.get(k, 0) or 0)`
(the default is `0` rather than `None`, unlike v2). -/
def moneyFieldD (raw : RawRecord) (k : String) : Option ℚ :=
  pyFloat (pyOr (pyGetD raw k (.vnum 0)) (.vnum 0))

/-- `(row.get("conversions", 0) or 0) > 0`: comparing a non-numeric
truthy value against `0` raises `TypeError` (`none`). -/
def pyGtZeroD (raw : RawRecord) (k : String) : Option Bool :=
  match pyOr (pyGetD raw k (.vnum 0)) (.vnum 0) with
  | .vnum q => some (0 < q)
  | _ => none

/-- The summary-record construction in `DataCollector.sync_visits`'s page
loop; the `float` coercions and the `> 0` comparison are the operations
that can raise. -/
def buildVisitSummary (from_str : String) (offset : Nat) (row : RawRecord) :
    Option V1VisitRow := do
  let cost ← moneyFieldD row "cost"
  let revenue ← moneyFieldD row "revenue"
  let profit ← moneyFieldD row "profit"
  let isConv ← pyGtZeroD row "conversions"
  some
    { visit_id := pyStr (pyGet row "campaignId") ++ "_" ++ from_str ++ "_" ++ toString offset
      campaign_id := pyGet row "campaignId"
      campaign_name := pyGet row "campaignName"
      traffic_source_id := pyGet row "trafficSourceId"
      traffic_source_name := pyGet row "trafficSourceName"
      visit_timestamp := from_str
      country_code := pyGet row "country"
      cost := cost
      revenue := revenue
      profit := profit
      is_conversion := isConv
      raw_data := row }

/-- Observable outcome of the `DataCollector.sync_visits` pagination
loop. -/
structure V1VisitsRun where
  fetches : Nat
  total : Nat
  batches : List (List V1VisitRow)
deriving DecidableEq, Repr

/-- The `while True` pagination loop of `DataCollector.sync_visits`.
Unlike the v2 conversions loop, the `except` arm re-raises, so any fetch
failure (`failAt`) or summary-construction failure aborts the whole call
exceptionally (`Except.error`).  `fuel` bounds the iterations as in
`convSyncLoopGo`. -/
def visitsSyncLoopGo (feed : List RawRecord) (failAt : Nat → Bool)
    (from_str : String) (limit : Nat) : Nat → Nat → Except Unit V1VisitsRun
  | 0, _ => .ok ⟨0, 0, []⟩
  | fuel + 1, offset =>
    if failAt offset then .error ()
    else if ((feed.drop offset).take limit).length = 0 then .ok ⟨1, 0, []⟩
    else
      match ((feed.drop offset).take limit).mapM (buildVisitSummary from_str offset) with
      | none => .error ()
      | some batch =>
        if ((feed.drop offset).take limit).length < limit then
          .ok ⟨1, batch.length, if batch.isEmpty then [] else [batch]⟩
        else
          match visitsSyncLoopGo feed failAt from_str limit fuel (offset + limit) with
          | .error e => .error e
          | .ok rest =>
            .ok ⟨1 + rest.fetches, batch.length + rest.total,
                 (if batch.isEmpty then [] else [batch]) ++ rest.batches⟩

/-- The pagination loop of `DataCollector.sync_visits` starting at
`offset`, with adequate fuel. -/
def visitsSyncLoop (feed : List RawRecord) (failAt : Nat → Bool)
    (from_str : String) (limit offset : Nat) : Except Unit V1VisitsRun :=
  visitsSyncLoopGo feed failAt from_str limit (feed.length + 1 - offset) offset

/-- `DataCollector.sync_visits`: run the pagination loop, then — only on
normal loop completion — issue the `update_sync_state("visits",
to_date.isoformat(), total_synced)` upsert and return the total.
`to_ts` is `to_date.isoformat()`. -/
def syncVisitsV1 (feed : List RawRecord) (failAt : Nat → Bool)
    (from_str to_ts : String) (limit : Nat) :
    Except Unit (Nat × SyncStateUpd) :=
  match visitsSyncLoop feed failAt from_str limit 0 with
  | .error e => .error e
  | .ok r => .ok (r.total, ⟨"visits", to_ts, r.total⟩)

/-- Destination schema of `DataCollector.transform_conversion`. -/
structure ConversionV1 where
  visit_id : PyVal
  click_id : PyVal
  conversion_id : PyVal
  campaign_id : PyVal
  campaign_name : PyVal
  offer_id : PyVal
  offer_name : PyVal
  conversion_timestamp : PyVal
  visit_timestamp : PyVal
  time_to_convert : Option String
  country_code : PyVal
  revenue : ℚ
  payout : ℚ
  transaction_id : PyVal
  conversion_type : PyVal
  raw_data : RawRecord
deriving DecidableEq, Repr

/-- Day number of a civil date relative to 1970-01-01 (valid for years
1–9999, which `mkDateTime` guarantees). -/
def daysFromCivil (y m d : Nat) : ℤ :=
  let y1 := if m ≤ 2 then y - 1 else y
  let era := y1 / 400
  let yoe := y1 - era * 400
  let mp := if m ≤ 2 then m + 9 else m - 3
  let doy := (153 * mp + 2) / 5 + d - 1
  let doe := yoe * 365 + yoe / 4 - yoe / 100 + doy
  ((era * 146097 + doe : Nat) : ℤ) - 719468

/-- A parsed datetime as a count of microseconds since the epoch, in UTC
when aware. -/
def epochMicro (a : AwareDT) : ℤ :=
  daysFromCivil a.dt.year a.dt.month a.dt.day * 86400000000
    + ((a.dt.hour * 3600 + a.dt.minute * 60 + a.dt.second : Nat) : ℤ) * 1000000
    + (a.micro : ℤ)
    - (a.tzoff.getD 0) * 1000000

/-- Python `str(timedelta(microseconds = us))`: normalised to whole days
plus a nonnegative remainder, rendered `[D day(s), ]H:MM:SS[.ffffff]`
with an unpadded hour. -/
def timedeltaStr (us : ℤ) : String :=
  let days := Int.fdiv us 86400000000
  let rem := (us - days * 86400000000).toNat
  let secs := rem / 1000000
  let micro := rem % 1000000
  let base := toString (secs / 3600) ++ ":" ++ pad2 ((secs % 3600) / 60) ++ ":"
    ++ pad2 (secs % 60) ++ (if micro ≠ 0 then "." ++ pad6 micro else "")
  if days ≠ 0 then
    toString days ++ " day" ++ (if days = 1 ∨ days = -1 then "" else "s") ++ ", " ++ base
  else base

/-- `datetime.fromisoformat(str(v).replace("Z", "+00:00"))` as used in
`DataCollector.transform_conversion`'s `time_to_convert` block. -/
def tryFromIso (v : PyVal) : Option AwareDT :=
  fromisoformatPy (replaceZ (pyStr v))

/-- The `time_to_convert` computation: only attempted when both
timestamps are truthy; any parse failure — and the `TypeError` from
subtracting a naive datetime from an aware one — is swallowed by the
`except: pass`, leaving `None`. -/
def timeToConvert (visit_ts conv_ts : PyVal) : Option String :=
  if pyTruthy visit_ts ∧ pyTruthy conv_ts then
    match tryFromIso visit_ts, tryFromIso conv_ts with
    | some v, some c =>
      match v.tzoff, c.tzoff with
      | none, none => some (timedeltaStr (epochMicro c - epochMicro v))
      | some _, some _ => some (timedeltaStr (epochMicro c - epochMicro v))
      | _, _ => none
    | _, _ => none
  else none

/-- `DataCollector.transform_conversion`.  `now_iso` stands for
`datetime.utcnow().isoformat()`, the fallback conversion timestamp.  The
two `float(...)` calls are the operations that can raise. -/
def transformConversionV1 (now_iso : String) (raw : RawRecord) :
    Option ConversionV1 := do
  let visit_ts := pyGet raw "visitTimestamp"
  let conv_ts0 := pyOr (pyOr (pyGet raw "conversionTimestamp") (pyGet raw "timestamp"))
    (pyGet raw "postbackTimestamp")
  let conv_ts := if pyTruthy conv_ts0 then conv_ts0 else pyOr visit_ts (.vstr now_iso)
  let revenue ← moneyFieldD raw "revenue"
  let payout ← moneyFieldD raw "payout"
  some
    { visit_id := pyGet raw "visitId"
      click_id := pyGet raw "clickId"
      conversion_id := pyOr (pyOr (pyGet raw "conversionId") (pyGet raw "postbackId"))
        (pyGet raw "clickId")
      campaign_id := pyGet raw "campaignId"
      campaign_name := pyGet raw "campaignName"
      offer_id := pyGet raw "offerId"
      offer_name := pyGet raw "offerName"
      conversion_timestamp := conv_ts
      visit_timestamp := visit_ts
      time_to_convert := timeToConvert visit_ts conv_ts
      country_code := pyOr (pyGet raw "countryCode") (pyGet raw "country")
      revenue := revenue
      payout := payout
      transaction_id := pyOr (pyGet raw "transactionId") (pyGet raw "txid")
      conversion_type := pyGet raw "conversionType"
      raw_data := raw }

/-- `DataCollector.sync_conversions`: a single (non-paginated) fetch.
The fetched body is modelled as the extracted row list.  Any raise —
from the fetch, a transform, or the upsert — is re-raised by the
`except` arm (`Except.error`), and then `update_sync_state` is *not*
reached.  On normal completion the cursor upsert
`("conversions", to_ts, total)` is issued and the total returned. -/
def syncConversionsV1 (fetchResult : Except Unit (List RawRecord))
    (now_iso to_ts : String) : Except Unit (Nat × SyncStateUpd) :=
  match fetchResult with
  | .error e => .error e
  | .ok conversions =>
    if conversions.isEmpty then .ok (0, ⟨"conversions", to_ts, 0⟩)
    else
      match conversions.mapM (transformConversionV1 now_iso) with
      | none => .error ()
      | some batch =>
        let unique := dedupeGuarded ConversionV1.conversion_id [] batch
        .ok (unique.length, ⟨"conversions", to_ts, unique.length⟩)

/-- Decidable equality of exception-shaped results, for evaluating the
models on concrete inputs. -/
instance {ε α : Type} [DecidableEq ε] [DecidableEq α] : DecidableEq (Except ε α) := by
  intro a b
  cases a <;> cases b
  case error.error e f => exact decidable_of_iff (e = f) (by simp)
  case ok.ok x y => exact decidable_of_iff (x = y) (by simp)
  all_goals exact isFalse (by simp)

/-- A conversion row that the v2 page processing handles without raising:
its `campaignName` is absent or a string (so the `in` filter is
applicable) and its monetary fields survive `float(...)`. -/
def convRowOk (row : RawRecord) : Bool :=
  (match pyGetD row "campaignName" (.vstr "") with
   | .vstr _ => true
   | _ => false)
  && (transformConversion row).isSome

/-- A report row that the v1 visit summary construction handles without
raising. -/
def visitRowOk (row : RawRecord) : Bool :=
  (moneyFieldD row "cost").isSome && (moneyFieldD row "revenue").isSome
    && (moneyFieldD row "profit").isSome && (pyGtZeroD row "conversions").isSome

/-! ## Theorems -/

theorem pyOr_of_falsy {a b : PyVal} (h : pyTruthy a = false) : pyOr a b = b := by
  simp [pyOr, h]

theorem moneyField_of_falsy (raw : RawRecord) (k : String)
    (h : pyTruthy (pyGet raw k) = false) : moneyField raw k = some 0 := by
  simp [moneyField, pyOr, h, pyFloat]

/-- C2: for every completed call of the cursor-tracked visits sync —
including one whose first fetched page is empty — the persisted cursor is
set to the requested `to_timestamp` with `records_synced` equal to the
run's returned total; the final conjunct exhibits the empty-feed run
advancing the watermark. -/
theorem c2_cursor_advancement (feed : List RawRecord) (failAt : Nat → Bool)
    (from_str to_ts : String) (limit : Nat) (n : Nat) (upd : SyncStateUpd)
    (h : syncVisitsV1 feed failAt from_str to_ts limit = .ok (n, upd)) :
    upd.sync_type = "visits" ∧ upd.last_sync_timestamp = to_ts
      ∧ upd.records_synced = n
      ∧ syncVisitsV1 [] (fun _ => false) from_str to_ts limit
          = .ok (0, ⟨"visits", to_ts, 0⟩) := by
  have hempty : syncVisitsV1 [] (fun _ => false) from_str to_ts limit
      = .ok (0, ⟨"visits", to_ts, 0⟩) := by
    simp [syncVisitsV1, visitsSyncLoop, visitsSyncLoopGo]
  cases hv : visitsSyncLoop feed failAt from_str limit 0 with
  | error e => rw [syncVisitsV1, hv] at h; cases h
  | ok r =>
    rw [syncVisitsV1, hv] at h
    cases h
    exact ⟨rfl, rfl, rfl, hempty⟩

/-- Witness for C2 at a one-row feed and at the empty feed. -/
theorem c2_cursor_advancement_witness :
    (⟨"visits", "t0", 1⟩ : SyncStateUpd).sync_type = "visits"
    ∧ (⟨"visits", "t0", 1⟩ : SyncStateUpd).last_sync_timestamp = "t0"
    ∧ (⟨"visits", "t0", 1⟩ : SyncStateUpd).records_synced = 1
    ∧ syncVisitsV1 [] (fun _ => false) "f0" "t0" 1000
        = .ok (0, ⟨"visits", "t0", 0⟩) :=
  c2_cursor_advancement [[("campaignId", PyVal.vstr "c")]] (fun _ => false)
    "f0" "t0" 1000 1 ⟨"visits", "t0", 1⟩ (by decide)

/-- C5: if a (truthy) token is cached and `now` is strictly before its
stored expiry, `get_token` returns it with zero credential exchanges; a
pair of consecutive calls inside the validity window performs exactly
one exchange; and whenever no valid cached token exists — no stored
token, an empty stored token, no stored expiry, or an expired one — one
exchange happens and both the response token and the computed expiry
(`now + 3h` in the v2 collector) are stored.  The fifth conjunct states
the expired-token refresh explicitly, and the final conjunct the same
cache check for the v1 client (expiry `now + 3.5h`). -/
theorem c5_token_caching (st : AuthState) (t : String) (e now now1 now2 : Nat)
    (resp resp2 : Option String) (tok : String)
    (hcache : st.token = some t) (hne : t ≠ "")
    (hexp : st.token_expires = some e) (hnow : now < e)
    (htok : tok ≠ "") (hpair : now2 < now1 + 10800) :
    ensureAuthV2 st now resp = ⟨st, some t, 0⟩
    ∧ (ensureAuthV2 ⟨none, none⟩ now1 (some tok)).exchanges
        + (ensureAuthV2 (ensureAuthV2 ⟨none, none⟩ now1 (some tok)).state now2
            resp2).exchanges = 1
    ∧ (ensureAuthV2 (ensureAuthV2 ⟨none, none⟩ now1 (some tok)).state now2
        resp2).result = some tok
    ∧ (∀ st' now' r', authCacheHit st' now' = false →
        ensureAuthV2 st' now' r' = ⟨⟨r', some (now' + 10800)⟩, r', 1⟩)
    ∧ (∀ t' e' now' r', e' ≤ now' →
        ensureAuthV2 ⟨some t', some e'⟩ now' r'
          = ⟨⟨r', some (now' + 10800)⟩, r', 1⟩)
    ∧ ensureAuthClient st now resp = ⟨st, some t, 0⟩ := by
  obtain ⟨tk, te⟩ := st
  simp only [AuthState.mk.injEq] at *
  subst hcache hexp
  refine ⟨?_, ?_, ?_, ?_, ?_, ?_⟩
  · simp [ensureAuthV2, ensureAuthWith, hnow, hne]
  · simp [ensureAuthV2, ensureAuthWith, hpair, htok]
  · simp [ensureAuthV2, ensureAuthWith, hpair, htok]
  · intro st' now' r' h'
    obtain ⟨tk', te'⟩ := st'
    cases tk' with
    | none => rfl
    | some t' =>
      cases te' with
      | none => rfl
      | some e' =>
        simp only [authCacheHit, Bool.and_eq_false_iff, decide_eq_false_iff_not,
          ne_eq, Decidable.not_not, decide_eq_true_eq, not_lt] at h'
        simp only [ensureAuthV2, ensureAuthWith]
        rcases h' with h' | h'
        · rw [if_neg (by simp [h'])]
        · rw [if_neg (by omega)]
  · intro t' e' now' r' h'
    simp only [ensureAuthV2, ensureAuthWith]
    rw [if_neg (by omega)]
  · simp [ensureAuthClient, ensureAuthWith, hnow, hne]

/-- Witness for C5 at a concrete cached state and call pair, including
an expired-token refresh instance. -/
theorem c5_token_caching_witness :
    ensureAuthV2 ⟨some "tk", some 100⟩ 99 none = ⟨⟨some "tk", some 100⟩, some "tk", 0⟩
    ∧ (ensureAuthV2 ⟨none, none⟩ 0 (some "fresh")).exchanges
        + (ensureAuthV2 (ensureAuthV2 ⟨none, none⟩ 0 (some "fresh")).state 600
            none).exchanges = 1
    ∧ (ensureAuthV2 (ensureAuthV2 ⟨none, none⟩ 0 (some "fresh")).state 600
        none).result = some "fresh"
    ∧ (∀ st' now' r', authCacheHit st' now' = false →
        ensureAuthV2 st' now' r' = ⟨⟨r', some (now' + 10800)⟩, r', 1⟩)
    ∧ (∀ t' e' now' r', e' ≤ now' →
        ensureAuthV2 ⟨some t', some e'⟩ now' r'
          = ⟨⟨r', some (now' + 10800)⟩, r', 1⟩)
    ∧ ensureAuthClient ⟨some "tk", some 100⟩ 99 none
        = ⟨⟨some "tk", some 100⟩, some "tk", 0⟩
    ∧ ensureAuthV2 ⟨some "tk", some 100⟩ 100 (some "new")
        = ⟨⟨some "new", some 10900⟩, some "new", 1⟩ := by
  have h := c5_token_caching ⟨some "tk", some 100⟩ "tk" 100 99 0 600 none none
    "fresh" rfl (by decide) rfl (by decide) (by decide) (by decide)
  exact ⟨h.1, h.2.1, h.2.2.1, h.2.2.2.1, h.2.2.2.2.1,
    h.2.2.2.2.2, h.2.2.2.2.1 "tk" 100 100 (some "new") (by decide)⟩

/-- C6 counterexample: the claim says a non-numeric monetary field is
coerced to `0` and that `transform_conversion` never raises, but
`float("abc")` raises `ValueError`: a record whose `revenue` is the
truthy non-numeric string `"abc"` makes the transform raise (`none`). -/
theorem c6_counterexample :
    transformConversion [("revenue", PyVal.vstr "abc")] = none := by decide

/-- C6 as amended: each of the four monetary fields is coerced to a
float, producing `0` when the field is absent, `null`, or otherwise
falsy — but a truthy non-numeric value makes the transform raise
instead of defaulting (the counterexample exhibits this). -/
theorem c6_monetary_coercion (raw : RawRecord)
    (h1 : pyTruthy (pyGet raw "revenue") = false)
    (h2 : pyTruthy (pyGet raw "payout") = false)
    (h3 : pyTruthy (pyGet raw "cost") = false)
    (h4 : pyTruthy (pyGet raw "profit") = false) :
    ∃ c, transformConversion raw = some c
      ∧ c.revenue = 0 ∧ c.payout = 0 ∧ c.cost = 0 ∧ c.profit = 0 := by
  simp only [transformConversion, moneyField_of_falsy raw "revenue" h1,
    moneyField_of_falsy raw "payout" h2, moneyField_of_falsy raw "cost" h3,
    moneyField_of_falsy raw "profit" h4, Option.bind_eq_bind, Option.some_bind]
  exact ⟨_, rfl, rfl, rfl, rfl, rfl⟩

/-- Witness for C6 at the claim's record
`revenue: null, payout: 0, cost: null, profit: null`. -/
theorem c6_monetary_coercion_witness :
    ∃ c, transformConversion
        [("revenue", PyVal.vnull), ("payout", PyVal.vnum 0),
         ("cost", PyVal.vnull), ("profit", PyVal.vnull)] = some c
      ∧ c.revenue = 0 ∧ c.payout = 0 ∧ c.cost = 0 ∧ c.profit = 0 :=
  c6_monetary_coercion
    [("revenue", PyVal.vnull), ("payout", PyVal.vnum 0),
     ("cost", PyVal.vnull), ("profit", PyVal.vnull)]
    (by decide) (by decide) (by decide) (by decide)

/-- C7: the AM/PM upstream format maps to ISO (midnight-normalised),
ISO-8601 with `Z` or an explicit offset is accepted, and any non-empty
string on which both parsers fail is returned unchanged (an empty string
maps to `None`). -/
theorem c7_timestamp_parsing (s : String) (hne : s ≠ "")
    (h1 : strptimeAmPm s = none)
    (h2 : fromisoformatPy (replaceZ s) = none) :
    parseTimestampStr s = some s
    ∧ parseTimestampStr "2025-12-18 12:52:23 AM" = some "2025-12-18T00:52:23"
    ∧ parseTimestampStr "2025-12-18 03:30:45 PM" = some "2025-12-18T15:30:45"
    ∧ parseTimestampStr "2025-12-18T10:30:00Z" = some "2025-12-18T10:30:00+00:00"
    ∧ parseTimestampStr "2025-12-18T10:30:00+02:00"
        = some "2025-12-18T10:30:00+02:00"
    ∧ parseTimestampStr "" = none := by
  refine ⟨?_, by decide, by decide, by decide, by decide, by decide⟩
  simp [parseTimestampStr, hne, h1, h2]

/-- Witness for C7 at the unparsable string `"not-a-date"`. -/
theorem c7_timestamp_parsing_witness :
    parseTimestampStr "not-a-date" = some "not-a-date"
    ∧ parseTimestampStr "2025-12-18 12:52:23 AM" = some "2025-12-18T00:52:23"
    ∧ parseTimestampStr "2025-12-18 03:30:45 PM" = some "2025-12-18T15:30:45"
    ∧ parseTimestampStr "2025-12-18T10:30:00Z" = some "2025-12-18T10:30:00+00:00"
    ∧ parseTimestampStr "2025-12-18T10:30:00+02:00"
        = some "2025-12-18T10:30:00+02:00"
    ∧ parseTimestampStr "" = none :=
  c7_timestamp_parsing "not-a-date" (by decide) (by decide) (by decide)

/-- The seen-set dedup loop preserves batch order: its output is a
sublist of its input. -/
theorem dedupeFirst_sublist {α κ : Type} [DecidableEq κ] (key : α → κ) :
    ∀ (l : List α) (seen : List κ), (dedupeFirst key seen l).Sublist l := by
  intro l
  induction l with
  | nil => intro seen; simp [dedupeFirst]
  | cons r rs ih =>
    intro seen
    rw [dedupeFirst]
    by_cases h : key r ∈ seen
    · rw [if_pos h]; exact (ih seen).cons r
    · rw [if_neg h]; exact (ih (key r :: seen)).cons₂ r

/-- Characterisation of the seen-set dedup loop: for any key value `k`
not already seen, the output's records with key `k` are exactly the
first input record with key `k`. -/
theorem dedupeFirst_filter {α κ : Type} [DecidableEq κ] (key : α → κ) (k : κ) :
    ∀ (l : List α) (seen : List κ),
      (dedupeFirst key seen l).filter (fun r => decide (key r = k))
        = if k ∈ seen then [] else (l.filter (fun r => decide (key r = k))).take 1 := by
  intro l
  induction l with
  | nil => intro seen; simp [dedupeFirst]
  | cons r rs ih =>
    intro seen
    rw [dedupeFirst]
    by_cases hmem : key r ∈ seen
    · rw [if_pos hmem, ih]
      by_cases hk : k ∈ seen
      · simp [hk]
      · have hne : ¬ (key r = k) := fun h => hk (h ▸ hmem)
        simp [hk, List.filter_cons, hne]
    · rw [if_neg hmem]
      by_cases hrk : key r = k
      · have hk : k ∉ seen := fun h => hmem (hrk ▸ h)
        have hk2 : k ∈ key r :: seen := by rw [hrk]; exact List.mem_cons_self _ _
        simp [List.filter_cons, hrk, ih, hk2, hk]
      · have : (dedupeFirst key (key r :: seen) rs).filter (fun r => decide (key r = k))
            = if k ∈ key r :: seen then [] else (rs.filter (fun r => decide (key r = k))).take 1 :=
          ih (key r :: seen)
        by_cases hk : k ∈ seen
        · simp [List.filter_cons, hrk, this, hk]
        · have hk2 : k ∉ key r :: seen := by
            intro hc
            rcases List.mem_cons.mp hc with h | h
            · exact hrk h.symm
            · exact hk h
          simp [List.filter_cons, hrk, this, hk2, hk]

/-- When every key is truthy, the v1 guarded dedup loop agrees with the
plain first-occurrence dedup. -/
theorem dedupeGuarded_eq_dedupeFirst {α : Type} (key : α → PyVal) :
    ∀ (l : List α) (seen : List PyVal), (∀ r ∈ l, pyTruthy (key r) = true) →
      dedupeGuarded key seen l = dedupeFirst key seen l := by
  intro l
  induction l with
  | nil => intro seen _; rfl
  | cons c cs ih =>
    intro seen ht
    have hc : pyTruthy (key c) = true := ht c (List.mem_cons_self _ _)
    have hcs : ∀ r ∈ cs, pyTruthy (key r) = true := fun r hr => ht r (List.mem_cons_of_mem _ hr)
    rw [dedupeGuarded, dedupeFirst]
    by_cases hmem : key c ∈ seen
    · rw [if_neg (by simp [hc, hmem]), if_pos hmem, ih seen hcs]
    · rw [if_pos (by simp [hc, hmem]), if_neg hmem, ih (key c :: seen) hcs]

/-- The v2 conversion transform stores the raw row unchanged under
`raw_data`. -/
theorem transformConversion_raw_data {row : RawRecord} {c : Conversion}
    (h : transformConversion row = some c) : c.raw_data = row := by
  simp only [transformConversion, Option.bind_eq_bind, Option.bind_eq_some] at h
  obtain ⟨rv, _, pv, _, cv, _, pf, _, hc⟩ := h
  cases hc
  rfl

/-- Case analysis of one per-row step of the v2 conversions page
processing: it either leaves the accumulator unchanged, or registers the
row's dedup key as seen and (when the transformed `click_id` is truthy)
appends the transformed record. -/
theorem convPageStep_cases (flt : String) (seen : List String)
    (batch : List Conversion) (row : RawRecord) (out : List String × List Conversion)
    (h : convPageStep flt (seen, batch) row = .ok out) :
    out = (seen, batch)
    ∨ (∃ conv, transformConversion row = some conv ∧ convRawKey row ∉ seen
        ∧ ((out = (convRawKey row :: seen, batch ++ [conv])
              ∧ pyTruthy conv.click_id = true)
            ∨ out = (convRawKey row :: seen, batch))) := by
  unfold convPageStep at h
  split at h
  · split at h
    · split at h
      · left; cases h; rfl
      · split at h
        · cases h
        · right
          refine ⟨_, by assumption, by assumption, ?_⟩
          split at h
          · left; exact ⟨by cases h; rfl, by assumption⟩
          · right; cases h; rfl
    · left; cases h; rfl
  · cases h

/-- Invariant of the v2 conversions page fold: batch records carry keys
that are registered as seen, the keys in a batch are pairwise distinct,
and every batched record has a truthy `click_id`. -/
theorem convFold_keys (flt : String) :
    ∀ (rows : List RawRecord) (seen : List String) (batch : List Conversion)
      (out : List String × List Conversion),
      List.foldlM (convPageStep flt) (seen, batch) rows = .ok out →
      (∀ c ∈ batch, convRawKey c.raw_data ∈ seen) →
      (batch.map fun c => convRawKey c.raw_data).Nodup →
      (∀ c ∈ batch, pyTruthy c.click_id = true) →
      (∀ c ∈ out.2, convRawKey c.raw_data ∈ out.1)
      ∧ (out.2.map fun c => convRawKey c.raw_data).Nodup
      ∧ (∀ c ∈ out.2, pyTruthy c.click_id = true) := by
  intro rows
  induction rows with
  | nil =>
    intro seen batch out h hin hnd htr
    simp only [List.foldlM_nil] at h
    cases h
    exact ⟨hin, hnd, htr⟩
  | cons row rs ih =>
    intro seen batch out h hin hnd htr
    rw [List.foldlM_cons] at h
    cases hstep : convPageStep flt (seen, batch) row with
    | error e => rw [hstep] at h; cases h
    | ok acc =>
      rw [hstep] at h
      replace h : List.foldlM (convPageStep flt) acc rs = .ok out := h
      rcases convPageStep_cases flt seen batch row acc hstep with hA | ⟨conv, hconv, hks, hout⟩
      · subst hA
        exact ih seen batch out h hin hnd htr
      · have hraw : conv.raw_data = row := transformConversion_raw_data hconv
        rcases hout with ⟨hout, hct⟩ | hout
        · subst hout
          refine ih _ _ out h ?_ ?_ ?_
          · intro c hc
            rcases List.mem_append.mp hc with hc | hc
            · exact List.mem_cons_of_mem _ (hin c hc)
            · rcases List.mem_singleton.mp hc with rfl
              rw [hraw]
              exact List.mem_cons_self _ _
          · rw [List.map_append]
            rw [List.nodup_append]
            refine ⟨hnd, by simp, ?_⟩
            intro k hk
            simp only [List.map_cons, List.map_nil, List.mem_singleton, hraw]
            rintro rfl
            rcases List.mem_map.mp hk with ⟨c, hc, hkey⟩
            exact hks (hkey ▸ hin c hc)
          · intro c hc
            rcases List.mem_append.mp hc with hc | hc
            · exact htr c hc
            · rcases List.mem_singleton.mp hc with rfl
              exact hct
        · subst hout
          refine ih _ _ out h ?_ hnd htr
          intro c hc
          exact List.mem_cons_of_mem _ (hin c hc)

/-- C8: deduplication retains exactly the first record per distinct
natural key and drops later ones, preserving batch order — stated for
the seen-set dedup discipline over any key function, for the v1 guarded
variant under truthy keys, for the batches the v2 conversions page
processing actually builds (pairwise-distinct keys), and at the concrete
thrice-repeated-key batch. -/
theorem c8_dedupe_first_occurrence {α κ : Type} [DecidableEq κ]
    (key : α → κ) (l : List α) (k : κ) (keyP : α → PyVal) (lp : List α)
    (htruthy : ∀ r ∈ lp, pyTruthy (keyP r) = true) :
    (dedupeFirst key [] l).filter (fun r => decide (key r = k))
        = (l.filter (fun r => decide (key r = k))).take 1
    ∧ (dedupeFirst key [] l).Sublist l
    ∧ dedupeGuarded keyP [] lp = dedupeFirst keyP [] lp
    ∧ (∀ flt rows batch, buildConvBatch flt rows = Except.ok batch →
        (batch.map fun c => convRawKey c.raw_data).Nodup)
    ∧ dedupeFirst Prod.fst [] [("c1", (1 : Nat)), ("c1", 2), ("c1", 3)] = [("c1", 1)] := by
  refine ⟨?_, dedupeFirst_sublist key l [],
    dedupeGuarded_eq_dedupeFirst keyP lp [] htruthy, ?_, by decide⟩
  · simpa using dedupeFirst_filter key k l []
  · intro flt rows batch h
    unfold buildConvBatch at h
    cases hf : List.foldlM (convPageStep flt) ([], []) rows with
    | error e => rw [hf] at h; cases h
    | ok out =>
      rw [hf] at h
      replace h : Except.ok out.2 = Except.ok batch := h
      cases h
      exact (convFold_keys flt rows [] [] out hf (by simp) (by simp) (by simp)).2.1

/-- Witness for C8 at concrete batches and key functions. -/
theorem c8_dedupe_first_occurrence_witness :
    (dedupeFirst Prod.fst [] [("a", (1 : Nat)), ("b", 2), ("a", 3)]).filter
        (fun r => decide (r.1 = "a"))
      = ([("a", (1 : Nat)), ("b", 2), ("a", 3)].filter (fun r => decide (r.1 = "a"))).take 1
    ∧ (dedupeFirst Prod.fst [] [("a", (1 : Nat)), ("b", 2), ("a", 3)]).Sublist
        [("a", 1), ("b", 2), ("a", 3)]
    ∧ dedupeGuarded (fun p => PyVal.vstr p.1) [] [("x", (1 : Nat)), ("y", 2)]
        = dedupeFirst (fun p => PyVal.vstr p.1) [] [("x", (1 : Nat)), ("y", 2)]
    ∧ (∀ flt rows batch, buildConvBatch flt rows = Except.ok batch →
        (batch.map fun c => convRawKey c.raw_data).Nodup)
    ∧ dedupeFirst Prod.fst [] [("c1", (1 : Nat)), ("c1", 2), ("c1", 3)] = [("c1", 1)] :=
  c8_dedupe_first_occurrence Prod.fst [("a", 1), ("b", 2), ("a", 3)] "a"
    (fun p => PyVal.vstr p.1) [("x", 1), ("y", 2)] (by decide)

/-- Row-level invariant of the campaign-scoped sync loops: the seen set
only grows, and the ids appended to the page batch are exactly a
duplicate-free list of previously unseen truthy click ids, all seen
afterwards. -/
theorem liveRowFold {ρ : Type} (tf : RawRecord → ρ) (cidOf : ρ → PyVal)
    (hcid : ∀ row, cidOf (tf row) = pyGet row "clickId") :
    ∀ (rows : List RawRecord) (seen : List PyVal) (batch : List ρ),
      (∀ i ∈ seen, i ∈ (rows.foldl (liveRow tf cidOf) (seen, batch)).1)
      ∧ ∃ newIds, (rows.foldl (liveRow tf cidOf) (seen, batch)).2.map cidOf
            = batch.map cidOf ++ newIds
          ∧ (∀ i ∈ newIds, i ∉ seen
              ∧ i ∈ (rows.foldl (liveRow tf cidOf) (seen, batch)).1
              ∧ pyTruthy i = true)
          ∧ newIds.Nodup := by
  intro rows
  induction rows with
  | nil =>
    intro seen batch
    exact ⟨fun i h => h, [], by simp, by simp, List.nodup_nil⟩
  | cons r rs ih =>
    intro seen batch
    rw [List.foldl_cons]
    by_cases hc : pyTruthy (pyGet r "clickId") = true ∧ pyGet r "clickId" ∉ seen
    · have hstep : liveRow tf cidOf (seen, batch) r
          = (pyGet r "clickId" :: seen, batch ++ [tf r]) := by
        simp only [liveRow]
        rw [if_pos hc, hcid r, if_pos hc.1]
      rw [hstep]
      obtain ⟨hmono, newIds, heq, hprops, hnd⟩ := ih (pyGet r "clickId" :: seen) (batch ++ [tf r])
      refine ⟨fun i hi => hmono i (List.mem_cons_of_mem _ hi),
        pyGet r "clickId" :: newIds, ?_, ?_, ?_⟩
      · rw [heq, List.map_append]
        simp [hcid r]
      · intro i hi
        rcases List.mem_cons.mp hi with rfl | hi
        · exact ⟨hc.2, hmono _ (List.mem_cons_self _ _), hc.1⟩
        · obtain ⟨h1, h2, h3⟩ := hprops i hi
          exact ⟨fun hsi => h1 (List.mem_cons_of_mem _ hsi), h2, h3⟩
      · rw [List.nodup_cons]
        exact ⟨fun hin => (hprops _ hin).1 (List.mem_cons_self _ _), hnd⟩
    · have hstep : liveRow tf cidOf (seen, batch) r = (seen, batch) := by
        simp only [liveRow]
        rw [if_neg hc]
      rw [hstep]
      exact ih seen batch

/-- One campaign preserves the call-level invariant: every upserted
click id is registered in the shared seen set, upserted ids are globally
pairwise distinct and truthy, and the running total equals the summed
batch sizes. -/
theorem liveCampaign_inv {ρ : Type} (tf : RawRecord → ρ) (cidOf : ρ → PyVal)
    (hcid : ∀ row, cidOf (tf row) = pyGet row "clickId")
    (acc : LiveAcc ρ) (c : CampaignRun)
    (hin : ∀ i ∈ acc.batches.flatten.map cidOf, i ∈ acc.seen)
    (hnd : (acc.batches.flatten.map cidOf).Nodup)
    (htr : ∀ i ∈ acc.batches.flatten.map cidOf, pyTruthy i = true)
    (htot : acc.total = (acc.batches.map List.length).sum) :
    (∀ i ∈ (liveCampaign tf cidOf acc c).batches.flatten.map cidOf,
        i ∈ (liveCampaign tf cidOf acc c).seen)
    ∧ ((liveCampaign tf cidOf acc c).batches.flatten.map cidOf).Nodup
    ∧ (∀ i ∈ (liveCampaign tf cidOf acc c).batches.flatten.map cidOf, pyTruthy i = true)
    ∧ (liveCampaign tf cidOf acc c).total
        = ((liveCampaign tf cidOf acc c).batches.map List.length).sum := by
  obtain ⟨fetch, up⟩ := c
  cases fetch with
  | error e => exact ⟨hin, hnd, htr, htot⟩
  | ok rows =>
    obtain ⟨hmono, newIds, heq, hprops, hndN⟩ := liveRowFold tf cidOf hcid rows acc.seen []
    rw [List.map_nil, List.nil_append] at heq
    simp only [liveCampaign]
    by_cases hre : rows.isEmpty
    · rw [if_pos hre]
      exact ⟨hin, hnd, htr, htot⟩
    · rw [if_neg hre]
      by_cases hbe : (rows.foldl (liveRow tf cidOf) (acc.seen, [])).2.isEmpty
      · rw [if_pos hbe]
        exact ⟨fun i h => hmono i (hin i h), hnd, htr, htot⟩
      · rw [if_neg hbe]
        by_cases hup : up
        · rw [if_pos hup]
          simp only [List.flatten_append, List.flatten, List.append_nil, List.map_append]
          refine ⟨?_, ?_, ?_, ?_⟩
          · intro i hi
            rcases List.mem_append.mp hi with hi | hi
            · exact hmono i (hin i hi)
            · rw [heq] at hi
              exact (hprops i hi).2.1
          · rw [List.nodup_append, heq]
            refine ⟨hnd, hndN, ?_⟩
            intro a ha ha'
            exact (hprops a ha').1 (hin a ha)
          · intro i hi
            rcases List.mem_append.mp hi with hi | hi
            · exact htr i hi
            · rw [heq] at hi
              exact (hprops i hi).2.2
          · simp [htot]
        · rw [if_neg hup]
          exact ⟨fun i h => hmono i (hin i h), hnd, htr, htot⟩

/-- The campaign fold preserves the call-level invariant. -/
theorem liveFold_inv {ρ : Type} (tf : RawRecord → ρ) (cidOf : ρ → PyVal)
    (hcid : ∀ row, cidOf (tf row) = pyGet row "clickId") :
    ∀ (cs : List CampaignRun) (acc : LiveAcc ρ),
      (∀ i ∈ acc.batches.flatten.map cidOf, i ∈ acc.seen) →
      (acc.batches.flatten.map cidOf).Nodup →
      (∀ i ∈ acc.batches.flatten.map cidOf, pyTruthy i = true) →
      acc.total = (acc.batches.map List.length).sum →
      (∀ i ∈ (cs.foldl (liveCampaign tf cidOf) acc).batches.flatten.map cidOf,
          i ∈ (cs.foldl (liveCampaign tf cidOf) acc).seen)
      ∧ ((cs.foldl (liveCampaign tf cidOf) acc).batches.flatten.map cidOf).Nodup
      ∧ (∀ i ∈ (cs.foldl (liveCampaign tf cidOf) acc).batches.flatten.map cidOf,
          pyTruthy i = true)
      ∧ (cs.foldl (liveCampaign tf cidOf) acc).total
          = ((cs.foldl (liveCampaign tf cidOf) acc).batches.map List.length).sum := by
  intro cs
  induction cs with
  | nil => intro acc hin hnd htr htot; exact ⟨hin, hnd, htr, htot⟩
  | cons c cs ih =>
    intro acc hin hnd htr htot
    rw [List.foldl_cons]
    obtain ⟨h1, h2, h3, h4⟩ := liveCampaign_inv tf cidOf hcid acc c hin hnd htr htot
    exact ih _ h1 h2 h3 h4

/-- A campaign whose fetch raises is skipped: the `except` arm logs and
`continue`s, leaving the accumulator untouched. -/
theorem liveCampaign_error {ρ : Type} (tf : RawRecord → ρ) (cidOf : ρ → PyVal)
    (acc : LiveAcc ρ) (e : CampaignRun) (he : e.fetch = .error ()) :
    liveCampaign tf cidOf acc e = acc := by
  obtain ⟨fetch, up⟩ := e
  simp only at he
  rw [he]
  rfl

/-- Each campaign only appends to the upsert trace and adds to the
total. -/
theorem liveCampaign_extends {ρ : Type} (tf : RawRecord → ρ) (cidOf : ρ → PyVal)
    (acc : LiveAcc ρ) (c : CampaignRun) :
    ∃ tb tn, (liveCampaign tf cidOf acc c).batches = acc.batches ++ tb
      ∧ (liveCampaign tf cidOf acc c).total = acc.total + tn := by
  obtain ⟨fetch, up⟩ := c
  cases fetch with
  | error e => exact ⟨[], 0, by simp [liveCampaign], by simp [liveCampaign]⟩
  | ok rows =>
    simp only [liveCampaign]
    by_cases hre : rows.isEmpty
    · rw [if_pos hre]; exact ⟨[], 0, by simp, by simp⟩
    · rw [if_neg hre]
      by_cases hbe : (rows.foldl (liveRow tf cidOf) (acc.seen, [])).2.isEmpty
      · rw [if_pos hbe]; exact ⟨[], 0, by simp, by simp⟩
      · rw [if_neg hbe]
        by_cases hup : up
        · rw [if_pos hup]
          exact ⟨[(rows.foldl (liveRow tf cidOf) (acc.seen, [])).2],
            (rows.foldl (liveRow tf cidOf) (acc.seen, [])).2.length, rfl, rfl⟩
        · rw [if_neg hup]; exact ⟨[], 0, by simp, by simp⟩

/-- The campaign fold only appends to the upsert trace and adds to the
total. -/
theorem liveFold_extends {ρ : Type} (tf : RawRecord → ρ) (cidOf : ρ → PyVal) :
    ∀ (cs : List CampaignRun) (acc : LiveAcc ρ),
      ∃ tb tn, (cs.foldl (liveCampaign tf cidOf) acc).batches = acc.batches ++ tb
        ∧ (cs.foldl (liveCampaign tf cidOf) acc).total = acc.total + tn := by
  intro cs
  induction cs with
  | nil => intro acc; exact ⟨[], 0, by simp, by simp⟩
  | cons c cs ih =>
    intro acc
    rw [List.foldl_cons]
    obtain ⟨tb1, tn1, hb1, ht1⟩ := liveCampaign_extends tf cidOf acc c
    obtain ⟨tb2, tn2, hb2, ht2⟩ := ih (liveCampaign tf cidOf acc c)
    exact ⟨tb1 ++ tb2, tn1 + tn2, by rw [hb2, hb1, List.append_assoc],
      by rw [ht2, ht1, Nat.add_assoc]⟩

/-- A successfully built v2 conversions page batch has truthy click ids
and pairwise-distinct dedup keys. -/
theorem buildConvBatch_props (flt : String) (rows : List RawRecord)
    (batch : List Conversion) (h : buildConvBatch flt rows = .ok batch) :
    (∀ c ∈ batch, pyTruthy c.click_id = true)
    ∧ (batch.map fun c => convRawKey c.raw_data).Nodup := by
  unfold buildConvBatch at h
  cases hf : List.foldlM (convPageStep flt) (([] : List String), ([] : List Conversion)) rows with
  | error e => rw [hf] at h; cases h
  | ok out =>
    rw [hf] at h
    replace h : Except.ok out.2 = Except.ok batch := h
    cases h
    have hk := convFold_keys flt rows [] [] out hf (by simp) (by simp) (by simp)
    exact ⟨hk.2.2, hk.2.1⟩

/-- Loop-level invariant of the v2 conversions pagination: every
upserted record has a truthy `click_id`, and the returned total equals
the summed sizes of the upserted batches. -/
theorem convLoopGo_inv (flt : String) (feed : List RawRecord) (failAt : Nat → Bool)
    (limit : Nat) :
    ∀ (fuel offset : Nat),
      (∀ b ∈ (convSyncLoopGo flt feed failAt limit fuel offset).batches, ∀ c ∈ b,
          pyTruthy c.click_id = true)
      ∧ (convSyncLoopGo flt feed failAt limit fuel offset).total
          = ((convSyncLoopGo flt feed failAt limit fuel offset).batches.map
              List.length).sum := by
  intro fuel
  induction fuel with
  | zero => intro offset; exact ⟨by simp [convSyncLoopGo], by simp [convSyncLoopGo]⟩
  | succ fuel ih =>
    intro offset
    rw [convSyncLoopGo]
    by_cases hfail : failAt offset = true
    · rw [if_pos hfail]
      exact ⟨by simp, by simp⟩
    · rw [if_neg hfail]
      by_cases hemp : ((feed.drop offset).take limit).length = 0
      · rw [if_pos hemp]
        exact ⟨by simp, by simp⟩
      · rw [if_neg hemp]
        cases hbb : buildConvBatch flt ((feed.drop offset).take limit) with
        | error e => exact ⟨by simp, by simp⟩
        | ok batch =>
          have htr := (buildConvBatch_props flt _ batch hbb).1
          dsimp only
          by_cases hshort : ((feed.drop offset).take limit).length < limit
          · rw [if_pos hshort]
            by_cases hbe : batch.isEmpty
            · have hb0 : batch = [] := List.isEmpty_iff.mp hbe
              subst hb0
              exact ⟨by simp [hbe], by simp [hbe]⟩
            · have hne : batch ≠ [] := by simpa [List.isEmpty_iff] using hbe
              refine ⟨?_, ?_⟩
              · intro b hb c hc
                simp only [if_neg hbe, List.mem_singleton] at hb
                subst hb
                exact htr c hc
              · simp [if_neg hbe, hne]
          · rw [if_neg hshort]
            obtain ⟨ihm, iht⟩ := ih (offset + limit)
            refine ⟨?_, ?_⟩
            · intro b hb c hc
              rcases List.mem_append.mp hb with hb | hb
              · by_cases hbe : batch.isEmpty
                · simp [hbe] at hb
                · simp only [if_neg hbe, List.mem_singleton] at hb
                  subst hb
                  exact htr c hc
              · exact ihm b hb c hc
            · by_cases hbe : batch.isEmpty
              · have hb0 : batch = [] := List.isEmpty_iff.mp hbe
                subst hb0
                simp [hbe, iht]
              · have hne : batch ≠ [] := by simpa [List.isEmpty_iff] using hbe
                simp [if_neg hbe, hne, iht]

/-- A campaign whose upsert raises contributes nothing to the upsert
trace or the total: the `except` arm catches the raise after the batch
was built, so the batch is discarded (though its seen-set additions
survive, as in the source). -/
theorem liveCampaign_upsertFail {ρ : Type} (tf : RawRecord → ρ) (cidOf : ρ → PyVal)
    (acc : LiveAcc ρ) (c : CampaignRun) (h : c.upsertOk = false) :
    (liveCampaign tf cidOf acc c).batches = acc.batches
    ∧ (liveCampaign tf cidOf acc c).total = acc.total := by
  obtain ⟨fetch, up⟩ := c
  simp only at h
  subst h
  cases fetch with
  | error e => exact ⟨rfl, rfl⟩
  | ok rows =>
    simp only [liveCampaign]
    by_cases hre : rows.isEmpty
    · rw [if_pos hre]; exact ⟨rfl, rfl⟩
    · rw [if_neg hre]
      by_cases hbe : (rows.foldl (liveRow tf cidOf) (acc.seen, [])).2.isEmpty
      · rw [if_pos hbe]; exact ⟨rfl, rfl⟩
      · rw [if_neg hbe]
        rw [if_neg (by simp)]
        exact ⟨rfl, rfl⟩

/-- C4: in the campaign-scoped syncs (live visits and live clicks), a
fetch error or an upsert error on one campaign is caught and the loop
proceeds to the next campaign.  For a fetch error the run equals the run
without the failing campaign.  For an upsert error the failing campaign
contributes no batch and no count, the loop continues over `post` from
the post-campaign state, and in both cases earlier campaigns' upserted
batches are kept as a prefix of the trace with the total still
reflecting them.  The call returns a normal accumulator by construction
— the loop's `except` arm swallows every raise. -/
theorem c4_campaign_error_isolation (pre post : List CampaignRun) (e e' : CampaignRun)
    (he : e.fetch = .error ()) (hup : e'.upsertOk = false) :
    syncLiveVisits (pre ++ e :: post) = syncLiveVisits (pre ++ post)
    ∧ syncLiveClicks (pre ++ e :: post) = syncLiveClicks (pre ++ post)
    ∧ (∃ tb tn, (syncLiveVisits (pre ++ e :: post)).batches
          = (syncLiveVisits pre).batches ++ tb
        ∧ (syncLiveVisits (pre ++ e :: post)).total
          = (syncLiveVisits pre).total + tn)
    ∧ (∃ tb tn, (syncLiveClicks (pre ++ e :: post)).batches
          = (syncLiveClicks pre).batches ++ tb
        ∧ (syncLiveClicks (pre ++ e :: post)).total
          = (syncLiveClicks pre).total + tn)
    ∧ (∀ acc : LiveAcc Visit,
        (liveCampaign transformVisit Visit.click_id acc e').batches = acc.batches
        ∧ (liveCampaign transformVisit Visit.click_id acc e').total = acc.total)
    ∧ (∀ acc : LiveAcc Click,
        (liveCampaign transformClick Click.click_id acc e').batches = acc.batches
        ∧ (liveCampaign transformClick Click.click_id acc e').total = acc.total)
    ∧ syncLiveVisits (pre ++ e' :: post)
        = post.foldl (liveCampaign transformVisit Visit.click_id)
            (liveCampaign transformVisit Visit.click_id (syncLiveVisits pre) e')
    ∧ syncLiveClicks (pre ++ e' :: post)
        = post.foldl (liveCampaign transformClick Click.click_id)
            (liveCampaign transformClick Click.click_id (syncLiveClicks pre) e')
    ∧ (∃ tb tn, (syncLiveVisits (pre ++ e' :: post)).batches
          = (syncLiveVisits pre).batches ++ tb
        ∧ (syncLiveVisits (pre ++ e' :: post)).total
          = (syncLiveVisits pre).total + tn)
    ∧ (∃ tb tn, (syncLiveClicks (pre ++ e' :: post)).batches
          = (syncLiveClicks pre).batches ++ tb
        ∧ (syncLiveClicks (pre ++ e' :: post)).total
          = (syncLiveClicks pre).total + tn)
    ∧ (syncLiveVisits (pre ++ [e'])).batches = (syncLiveVisits pre).batches
    ∧ (syncLiveVisits (pre ++ [e'])).total = (syncLiveVisits pre).total
    ∧ (syncLiveClicks (pre ++ [e'])).batches = (syncLiveClicks pre).batches
    ∧ (syncLiveClicks (pre ++ [e'])).total = (syncLiveClicks pre).total := by
  have key : ∀ {ρ : Type} (tf : RawRecord → ρ) (cidOf : ρ → PyVal),
      liveSync tf cidOf (pre ++ e :: post) = liveSync tf cidOf (pre ++ post) := by
    intro ρ tf cidOf
    unfold liveSync
    rw [List.foldl_append, List.foldl_append, List.foldl_cons,
      liveCampaign_error tf cidOf _ e he]
  have ext : ∀ {ρ : Type} (tf : RawRecord → ρ) (cidOf : ρ → PyVal),
      ∃ tb tn, (liveSync tf cidOf (pre ++ e :: post)).batches
          = (liveSync tf cidOf pre).batches ++ tb
        ∧ (liveSync tf cidOf (pre ++ e :: post)).total
          = (liveSync tf cidOf pre).total + tn := by
    intro ρ tf cidOf
    unfold liveSync
    rw [List.foldl_append, List.foldl_cons, liveCampaign_error tf cidOf _ e he]
    exact liveFold_extends tf cidOf post _
  have cont : ∀ {ρ : Type} (tf : RawRecord → ρ) (cidOf : ρ → PyVal),
      liveSync tf cidOf (pre ++ e' :: post)
        = post.foldl (liveCampaign tf cidOf)
            (liveCampaign tf cidOf (liveSync tf cidOf pre) e') := by
    intro ρ tf cidOf
    unfold liveSync
    rw [List.foldl_append, List.foldl_cons]
  have ext' : ∀ {ρ : Type} (tf : RawRecord → ρ) (cidOf : ρ → PyVal),
      ∃ tb tn, (liveSync tf cidOf (pre ++ e' :: post)).batches
          = (liveSync tf cidOf pre).batches ++ tb
        ∧ (liveSync tf cidOf (pre ++ e' :: post)).total
          = (liveSync tf cidOf pre).total + tn := by
    intro ρ tf cidOf
    unfold liveSync
    rw [List.foldl_append, List.foldl_cons]
    obtain ⟨hb0, ht0⟩ := liveCampaign_upsertFail tf cidOf
      (List.foldl (liveCampaign tf cidOf) ⟨[], 0, []⟩ pre) e' hup
    obtain ⟨tb, tn, hb, ht⟩ := liveFold_extends tf cidOf post
      (liveCampaign tf cidOf (List.foldl (liveCampaign tf cidOf) ⟨[], 0, []⟩ pre) e')
    exact ⟨tb, tn, by rw [hb, hb0], by rw [ht, ht0]⟩
  have single : ∀ {ρ : Type} (tf : RawRecord → ρ) (cidOf : ρ → PyVal),
      (liveSync tf cidOf (pre ++ [e'])).batches = (liveSync tf cidOf pre).batches
      ∧ (liveSync tf cidOf (pre ++ [e'])).total = (liveSync tf cidOf pre).total := by
    intro ρ tf cidOf
    unfold liveSync
    rw [List.foldl_append, List.foldl_cons, List.foldl_nil]
    exact liveCampaign_upsertFail tf cidOf _ e' hup
  exact ⟨key _ _, key _ _, ext _ _, ext _ _,
    fun acc => liveCampaign_upsertFail transformVisit Visit.click_id acc e' hup,
    fun acc => liveCampaign_upsertFail transformClick Click.click_id acc e' hup,
    cont transformVisit Visit.click_id, cont transformClick Click.click_id,
    ext' transformVisit Visit.click_id, ext' transformClick Click.click_id,
    (single transformVisit Visit.click_id).1, (single transformVisit Visit.click_id).2,
    (single transformClick Click.click_id).1, (single transformClick Click.click_id).2⟩

/-- C9: the seen click-id set is shared across all campaigns of one
`sync_live_visits`/`sync_live_clicks` call, so at most one record per
click id is upserted per call: the click ids across all upserted batches
are pairwise distinct. -/
theorem c9_seen_shared_across_campaigns (cs : List CampaignRun) :
    ((syncLiveVisits cs).batches.flatten.map Visit.click_id).Nodup
    ∧ ((syncLiveClicks cs).batches.flatten.map Click.click_id).Nodup := by
  have h1 := liveFold_inv transformVisit Visit.click_id (fun _ => rfl) cs ⟨[], 0, []⟩
    (by simp) (by simp) (by simp) (by simp)
  have h2 := liveFold_inv transformClick Click.click_id (fun _ => rfl) cs ⟨[], 0, []⟩
    (by simp) (by simp) (by simp) (by simp)
  exact ⟨h1.2.1, h2.2.1⟩

/-- C10: the v2 sync paths never upsert or count a record whose raw
`clickId` is absent, `None`, or empty: every record in every upserted
batch of `sync_live_visits`, `sync_live_clicks` and `sync_conversions`
has a truthy `click_id`, and each returned total counts exactly the
upserted records. -/
theorem c10_click_id_required (cs cs' : List CampaignRun) (flt : String)
    (feed : List RawRecord) (failAt : Nat → Bool) (limit offset : Nat) :
    (∀ b ∈ (syncLiveVisits cs).batches, ∀ v ∈ b, pyTruthy v.click_id = true)
    ∧ (syncLiveVisits cs).total = ((syncLiveVisits cs).batches.map List.length).sum
    ∧ (∀ b ∈ (syncLiveClicks cs').batches, ∀ v ∈ b, pyTruthy v.click_id = true)
    ∧ (syncLiveClicks cs').total = ((syncLiveClicks cs').batches.map List.length).sum
    ∧ (∀ b ∈ (convSyncLoop flt feed failAt limit offset).batches, ∀ c ∈ b,
        pyTruthy c.click_id = true)
    ∧ (convSyncLoop flt feed failAt limit offset).total
        = ((convSyncLoop flt feed failAt limit offset).batches.map List.length).sum := by
  have h1 := liveFold_inv transformVisit Visit.click_id (fun _ => rfl) cs ⟨[], 0, []⟩
    (by simp) (by simp) (by simp) (by simp)
  have h2 := liveFold_inv transformClick Click.click_id (fun _ => rfl) cs' ⟨[], 0, []⟩
    (by simp) (by simp) (by simp) (by simp)
  have h3 := convLoopGo_inv flt feed failAt limit (feed.length + 1 - offset) offset
  refine ⟨?_, h1.2.2.2, ?_, h2.2.2.2, h3.1, h3.2⟩
  · intro b hb v hv
    exact h1.2.2.1 _ (List.mem_map.mpr ⟨v, List.mem_flatten.mpr ⟨b, hb, hv⟩, rfl⟩)
  · intro b hb v hv
    exact h2.2.2.1 _ (List.mem_map.mpr ⟨v, List.mem_flatten.mpr ⟨b, hb, hv⟩, rfl⟩)

/-- A well-formed row cannot make the v2 per-row step raise. -/
theorem convPageStep_ok (flt : String) (acc : List String × List Conversion)
    (row : RawRecord) (h : convRowOk row = true) :
    ∃ acc', convPageStep flt acc row = .ok acc' := by
  unfold convRowOk at h
  rw [Bool.and_eq_true] at h
  unfold convPageStep
  cases hname : pyGetD row "campaignName" (.vstr "") with
  | vnull => rw [hname] at h; simp at h
  | vnum q => rw [hname] at h; simp at h
  | vstr name =>
    dsimp only
    by_cases hflt : strContainsSub name flt
    · rw [if_pos hflt]
      by_cases hseen : convRawKey row ∈ acc.1
      · rw [if_pos hseen]; exact ⟨acc, rfl⟩
      · rw [if_neg hseen]
        obtain ⟨conv, hconv⟩ := Option.isSome_iff_exists.mp h.2
        rw [hconv]
        exact ⟨_, rfl⟩
    · rw [if_neg hflt]
      exact ⟨acc, rfl⟩

/-- A page of well-formed rows cannot make the v2 page fold raise. -/
theorem convFold_ok (flt : String) :
    ∀ (rows : List RawRecord) (acc : List String × List Conversion),
      (∀ r ∈ rows, convRowOk r = true) →
      ∃ out, List.foldlM (convPageStep flt) acc rows = .ok out := by
  intro rows
  induction rows with
  | nil => intro acc _; exact ⟨acc, rfl⟩
  | cons r rs ih =>
    intro acc hok
    rw [List.foldlM_cons]
    obtain ⟨acc', hacc⟩ := convPageStep_ok flt acc r (hok r (List.mem_cons_self _ _))
    rw [hacc]
    obtain ⟨out, hout⟩ := ih acc' (fun x hx => hok x (List.mem_cons_of_mem _ hx))
    exact ⟨out, hout⟩

/-- A page of well-formed rows yields a batch. -/
theorem buildConvBatch_ok (flt : String) (rows : List RawRecord)
    (h : ∀ r ∈ rows, convRowOk r = true) :
    ∃ b, buildConvBatch flt rows = .ok b := by
  obtain ⟨out, hout⟩ := convFold_ok flt rows ([], []) h
  exact ⟨out.2, by rw [buildConvBatch, hout]; rfl⟩

/-- Fetch count of the v2 conversions pagination over an error-free feed
of well-formed rows: starting at `offset` with adequate fuel, the loop
issues exactly `(n - offset) / limit + 1` fetches. -/
theorem convLoopGo_fetches (flt : String) (feed : List RawRecord) (limit : Nat)
    (hrows : ∀ r ∈ feed, convRowOk r = true) :
    ∀ (fuel offset : Nat), feed.length - offset < fuel →
      (convSyncLoopGo flt feed (fun _ => false) limit fuel offset).fetches
        = (feed.length - offset) / limit + 1 := by
  intro fuel
  induction fuel with
  | zero => intro offset h; exact absurd h (Nat.not_lt_zero _)
  | succ fuel ih =>
    intro offset hlt
    rw [convSyncLoopGo]
    rw [if_neg (by simp)]
    have hlen : ((feed.drop offset).take limit).length
        = min limit (feed.length - offset) := by
      simp [List.length_take, List.length_drop]
    by_cases hemp : ((feed.drop offset).take limit).length = 0
    · rw [if_pos hemp]
      rcases Nat.min_eq_zero_iff.mp (hlen ▸ hemp) with h0 | h0
      · simp [h0]
      · simp [h0]
    · rw [if_neg hemp]
      obtain ⟨b, hb⟩ := buildConvBatch_ok flt _
        (fun r hr => hrows r (List.mem_of_mem_drop (List.mem_of_mem_take hr)))
      rw [hb]
      dsimp only
      by_cases hshort : ((feed.drop offset).take limit).length < limit
      · rw [if_pos hshort]
        have hsm : feed.length - offset < limit := by rw [hlen] at hshort; omega
        simp [Nat.div_eq_of_lt hsm]
      · rw [if_neg hshort]
        have h1 : 1 ≤ limit ∧ limit ≤ feed.length - offset := by
          rw [hlen] at hemp hshort; omega
        have hrec := ih (offset + limit) (by omega)
        dsimp only
        rw [hrec]
        have hoff : feed.length - (offset + limit) = feed.length - offset - limit := by
          omega
        rw [hoff, Nat.div_eq_sub_div h1.1 h1.2]
        generalize (feed.length - offset - limit) / limit = q
        omega

/-- A well-formed report row cannot make the v1 summary construction
raise. -/
theorem buildVisitSummary_ok (from_str : String) (offset : Nat) (row : RawRecord)
    (h : visitRowOk row = true) : ∃ v, buildVisitSummary from_str offset row = some v := by
  unfold visitRowOk at h
  simp only [Bool.and_eq_true, Option.isSome_iff_exists] at h
  obtain ⟨⟨⟨⟨c, hc⟩, r, hr⟩, p, hp⟩, g, hg⟩ := h
  simp only [buildVisitSummary, hc, hr, hp, hg, Option.bind_eq_bind, Option.some_bind]
  exact ⟨_, rfl⟩

/-- A page of well-formed report rows yields a summary batch. -/
theorem visitMapM_ok (from_str : String) (offset : Nat) :
    ∀ (rows : List RawRecord), (∀ r ∈ rows, visitRowOk r = true) →
      ∃ b, rows.mapM (buildVisitSummary from_str offset) = some b := by
  intro rows
  induction rows with
  | nil => exact fun _ => ⟨[], rfl⟩
  | cons r rs ih =>
    intro hok
    rw [List.mapM_cons]
    obtain ⟨v, hv⟩ := buildVisitSummary_ok from_str offset r (hok r (List.mem_cons_self _ _))
    obtain ⟨b, hb⟩ := ih (fun x hx => hok x (List.mem_cons_of_mem _ hx))
    rw [hv, hb]
    exact ⟨v :: b, rfl⟩

/-- Fetch count of the v1 visits pagination over an error-free feed of
well-formed rows. -/
theorem visitsLoopGo_fetches (feed : List RawRecord) (from_str : String) (limit : Nat)
    (hrows : ∀ r ∈ feed, visitRowOk r = true) :
    ∀ (fuel offset : Nat), feed.length - offset < fuel →
      ∃ r, visitsSyncLoopGo feed (fun _ => false) from_str limit fuel offset = .ok r
        ∧ r.fetches = (feed.length - offset) / limit + 1 := by
  intro fuel
  induction fuel with
  | zero => intro offset h; exact absurd h (Nat.not_lt_zero _)
  | succ fuel ih =>
    intro offset hlt
    rw [visitsSyncLoopGo]
    rw [if_neg (by simp)]
    have hlen : ((feed.drop offset).take limit).length
        = min limit (feed.length - offset) := by
      simp [List.length_take, List.length_drop]
    by_cases hemp : ((feed.drop offset).take limit).length = 0
    · rw [if_pos hemp]
      refine ⟨⟨1, 0, []⟩, rfl, ?_⟩
      rcases Nat.min_eq_zero_iff.mp (hlen ▸ hemp) with h0 | h0
      · simp [h0]
      · simp [h0]
    · rw [if_neg hemp]
      obtain ⟨b, hb⟩ := visitMapM_ok from_str offset _
        (fun r hr => hrows r (List.mem_of_mem_drop (List.mem_of_mem_take hr)))
      rw [hb]
      dsimp only
      by_cases hshort : ((feed.drop offset).take limit).length < limit
      · rw [if_pos hshort]
        have hsm : feed.length - offset < limit := by rw [hlen] at hshort; omega
        exact ⟨_, rfl, by simp [Nat.div_eq_of_lt hsm]⟩
      · rw [if_neg hshort]
        have h1 : 1 ≤ limit ∧ limit ≤ feed.length - offset := by
          rw [hlen] at hemp hshort; omega
        obtain ⟨r, hr, hfr⟩ := ih (offset + limit) (by omega)
        rw [hr]
        dsimp only
        refine ⟨_, rfl, ?_⟩
        dsimp only
        rw [hfr]
        have hoff : feed.length - (offset + limit) = feed.length - offset - limit := by
          omega
        rw [hoff, Nat.div_eq_sub_div h1.1 h1.2]
        generalize (feed.length - offset - limit) / limit = q
        omega

/-- C1 counterexample: the claim's fetch count `ceil(n/L)` fails when
the feed size is a positive multiple of the page limit.  With one row
and limit 1, `ceil(1/1) = 1` but the loop issues 2 fetches: the full
first page does not end the loop, and the following empty-page fetch
does. -/
theorem c1_counterexample :
    ¬ (convSyncLoop "" [[("clickId", PyVal.vstr "c1")]] (fun _ => false) 1 0).fetches
        = (1 + 1 - 1) / 1 := by decide

/-- C1 as amended: a short page ends the loop after processing with no
extra fetch, a full page advances the offset by the limit, and over an
upstream feed of `n` rows with page size `L` the loop issues exactly
`floor(n/L) + 1` fetches — which equals `ceil(n/L)` unless `n` is a
positive multiple of `L`, where one additional empty-page fetch occurs
(and is 1 for `n = 0`).  Stated for both the v2 conversions loop and
the v1 campaign-grouped visits loop. -/
theorem c1_pagination_fetch_count (flt from_str : String)
    (feedC feedV : List RawRecord) (limit : Nat)
    (hc : ∀ r ∈ feedC, convRowOk r = true)
    (hv : ∀ r ∈ feedV, visitRowOk r = true) :
    (convSyncLoop flt feedC (fun _ => false) limit 0).fetches
        = feedC.length / limit + 1
    ∧ ∃ r, visitsSyncLoop feedV (fun _ => false) from_str limit 0 = .ok r
        ∧ r.fetches = feedV.length / limit + 1 := by
  constructor
  · have h := convLoopGo_fetches flt feedC limit hc (feedC.length + 1 - 0) 0 (by omega)
    simpa [convSyncLoop] using h
  · have h := visitsLoopGo_fetches feedV from_str limit hv (feedV.length + 1 - 0) 0 (by omega)
    simpa [visitsSyncLoop] using h

/-- Witness for C1 at a 3-row feed with limit 2 (2 fetches) and a 1-row
feed with limit 2 (1 fetch). -/
theorem c1_pagination_fetch_count_witness :
    (convSyncLoop "" [[("clickId", PyVal.vstr "c1")], [("clickId", PyVal.vstr "c2")],
        [("clickId", PyVal.vstr "c3")]] (fun _ => false) 2 0).fetches
      = ([[("clickId", PyVal.vstr "c1")], [("clickId", PyVal.vstr "c2")],
          [("clickId", PyVal.vstr "c3")]] : List RawRecord).length / 2 + 1
    ∧ ∃ r, visitsSyncLoop [[("campaignId", PyVal.vstr "x")]] (fun _ => false) "f0" 2 0
          = .ok r
        ∧ r.fetches = ([[("campaignId", PyVal.vstr "x")]] : List RawRecord).length / 2 + 1 :=
  c1_pagination_fetch_count "" "f0"
    [[("clickId", PyVal.vstr "c1")], [("clickId", PyVal.vstr "c2")],
      [("clickId", PyVal.vstr "c3")]]
    [[("campaignId", PyVal.vstr "x")]] 2 (by decide) (by decide)

/-- C3 counterexample: the claim says a per-page error in the global
paginated conversions feed propagates to the caller, but
`VoluumLiveCollector.sync_conversions` logs and `break`s: with a 2-row
feed, limit 1 and the second fetch raising, the call returns the normal
partial total `.ok 1` and no exceptional result. -/
theorem c3_counterexample :
    syncConversionsV2 "" [[("clickId", PyVal.vstr "c1")], [("clickId", PyVal.vstr "c2")]]
        (fun o => o == 1) 1 = .ok 1
    ∧ syncConversionsV2 "" [[("clickId", PyVal.vstr "c1")], [("clickId", PyVal.vstr "c2")]]
        (fun o => o == 1) 1 ≠ .error () := by
  exact ⟨by decide, by decide⟩

/-- C3 as amended: a per-page error aborts the pagination immediately —
no further page is fetched or processed — in both collectors; in
`DataCollector.sync_conversions` the error propagates to the caller
(and the cursor update is not reached), while in
`VoluumLiveCollector.sync_conversions` it is swallowed and the call
returns its partial total normally. -/
theorem c3_error_propagation (flt : String) (feed : List RawRecord)
    (failAt : Nat → Bool) (limit offset : Nat) (now_iso to_ts : String)
    (hfail : failAt offset = true) :
    (∀ fuel, convSyncLoopGo flt feed failAt limit (fuel + 1) offset = ⟨1, 0, [], true⟩)
    ∧ syncConversionsV2 flt feed failAt limit
        = .ok (convSyncLoop flt feed failAt limit 0).total
    ∧ syncConversionsV1 (.error ()) now_iso to_ts = .error () := by
  refine ⟨?_, rfl, rfl⟩
  intro fuel
  rw [convSyncLoopGo, if_pos hfail]

/-- Witness for C3 with a fetch failing at offset 0. -/
theorem c3_error_propagation_witness :
    (∀ fuel, convSyncLoopGo "" [] (fun _ => true) 1000 (fuel + 1) 0 = ⟨1, 0, [], true⟩)
    ∧ syncConversionsV2 "" [] (fun _ => true) 1000
        = .ok (convSyncLoop "" [] (fun _ => true) 1000 0).total
    ∧ syncConversionsV1 (.error ()) "n0" "t0" = .error () :=
  c3_error_propagation "" [] (fun _ => true) 1000 0 "n0" "t0" rfl

/-- Witness for C4 at a three-campaign run whose middle campaign has a
failing fetch, and at the analogous run whose middle campaign fetches
rows but has a failing upsert. -/
theorem c4_campaign_error_isolation_witness :
    syncLiveVisits ([⟨.ok [[("clickId", PyVal.vstr "a")]], true⟩]
        ++ (⟨.error (), true⟩ : CampaignRun) :: [⟨.ok [[("clickId", PyVal.vstr "b")]], true⟩]) = syncLiveVisits ([⟨.ok [[("clickId", PyVal.vstr "a")]], true⟩] ++ [⟨.ok [[("clickId", PyVal.vstr "b")]], true⟩])
    ∧ syncLiveClicks ([⟨.ok [[("clickId", PyVal.vstr "a")]], true⟩]
        ++ (⟨.error (), true⟩ : CampaignRun) :: [⟨.ok [[("clickId", PyVal.vstr "b")]], true⟩]) = syncLiveClicks ([⟨.ok [[("clickId", PyVal.vstr "a")]], true⟩] ++ [⟨.ok [[("clickId", PyVal.vstr "b")]], true⟩])
    ∧ (∃ tb tn, (syncLiveVisits ([⟨.ok [[("clickId", PyVal.vstr "a")]], true⟩]
        ++ (⟨.error (), true⟩ : CampaignRun) :: [⟨.ok [[("clickId", PyVal.vstr "b")]], true⟩])).batches
          = (syncLiveVisits [⟨.ok [[("clickId", PyVal.vstr "a")]], true⟩]).batches ++ tb
        ∧ (syncLiveVisits ([⟨.ok [[("clickId", PyVal.vstr "a")]], true⟩]
        ++ (⟨.error (), true⟩ : CampaignRun) :: [⟨.ok [[("clickId", PyVal.vstr "b")]], true⟩])).total
          = (syncLiveVisits [⟨.ok [[("clickId", PyVal.vstr "a")]], true⟩]).total + tn)
    ∧ (∃ tb tn, (syncLiveClicks ([⟨.ok [[("clickId", PyVal.vstr "a")]], true⟩]
        ++ (⟨.error (), true⟩ : CampaignRun) :: [⟨.ok [[("clickId", PyVal.vstr "b")]], true⟩])).batches
          = (syncLiveClicks [⟨.ok [[("clickId", PyVal.vstr "a")]], true⟩]).batches ++ tb
        ∧ (syncLiveClicks ([⟨.ok [[("clickId", PyVal.vstr "a")]], true⟩]
        ++ (⟨.error (), true⟩ : CampaignRun) :: [⟨.ok [[("clickId", PyVal.vstr "b")]], true⟩])).total
          = (syncLiveClicks [⟨.ok [[("clickId", PyVal.vstr "a")]], true⟩]).total + tn)
    ∧ (∀ acc : LiveAcc Visit,
        (liveCampaign transformVisit Visit.click_id acc (⟨.ok [[("clickId", PyVal.vstr "c")]], false⟩ : CampaignRun)).batches = acc.batches
        ∧ (liveCampaign transformVisit Visit.click_id acc (⟨.ok [[("clickId", PyVal.vstr "c")]], false⟩ : CampaignRun)).total = acc.total)
    ∧ (∀ acc : LiveAcc Click,
        (liveCampaign transformClick Click.click_id acc (⟨.ok [[("clickId", PyVal.vstr "c")]], false⟩ : CampaignRun)).batches = acc.batches
        ∧ (liveCampaign transformClick Click.click_id acc (⟨.ok [[("clickId", PyVal.vstr "c")]], false⟩ : CampaignRun)).total = acc.total)
    ∧ syncLiveVisits ([⟨.ok [[("clickId", PyVal.vstr "a")]], true⟩]
        ++ (⟨.ok [[("clickId", PyVal.vstr "c")]], false⟩ : CampaignRun) :: [⟨.ok [[("clickId", PyVal.vstr "b")]], true⟩])
        = [⟨.ok [[("clickId", PyVal.vstr "b")]], true⟩].foldl (liveCampaign transformVisit Visit.click_id)
            (liveCampaign transformVisit Visit.click_id (syncLiveVisits [⟨.ok [[("clickId", PyVal.vstr "a")]], true⟩]) (⟨.ok [[("clickId", PyVal.vstr "c")]], false⟩ : CampaignRun))
    ∧ syncLiveClicks ([⟨.ok [[("clickId", PyVal.vstr "a")]], true⟩]
        ++ (⟨.ok [[("clickId", PyVal.vstr "c")]], false⟩ : CampaignRun) :: [⟨.ok [[("clickId", PyVal.vstr "b")]], true⟩])
        = [⟨.ok [[("clickId", PyVal.vstr "b")]], true⟩].foldl (liveCampaign transformClick Click.click_id)
            (liveCampaign transformClick Click.click_id (syncLiveClicks [⟨.ok [[("clickId", PyVal.vstr "a")]], true⟩]) (⟨.ok [[("clickId", PyVal.vstr "c")]], false⟩ : CampaignRun))
    ∧ (∃ tb tn, (syncLiveVisits ([⟨.ok [[("clickId", PyVal.vstr "a")]], true⟩]
        ++ (⟨.ok [[("clickId", PyVal.vstr "c")]], false⟩ : CampaignRun) :: [⟨.ok [[("clickId", PyVal.vstr "b")]], true⟩])).batches
          = (syncLiveVisits [⟨.ok [[("clickId", PyVal.vstr "a")]], true⟩]).batches ++ tb
        ∧ (syncLiveVisits ([⟨.ok [[("clickId", PyVal.vstr "a")]], true⟩]
        ++ (⟨.ok [[("clickId", PyVal.vstr "c")]], false⟩ : CampaignRun) :: [⟨.ok [[("clickId", PyVal.vstr "b")]], true⟩])).total
          = (syncLiveVisits [⟨.ok [[("clickId", PyVal.vstr "a")]], true⟩]).total + tn)
    ∧ (∃ tb tn, (syncLiveClicks ([⟨.ok [[("clickId", PyVal.vstr "a")]], true⟩]
        ++ (⟨.ok [[("clickId", PyVal.vstr "c")]], false⟩ : CampaignRun) :: [⟨.ok [[("clickId", PyVal.vstr "b")]], true⟩])).batches
          = (syncLiveClicks [⟨.ok [[("clickId", PyVal.vstr "a")]], true⟩]).batches ++ tb
        ∧ (syncLiveClicks ([⟨.ok [[("clickId", PyVal.vstr "a")]], true⟩]
        ++ (⟨.ok [[("clickId", PyVal.vstr "c")]], false⟩ : CampaignRun) :: [⟨.ok [[("clickId", PyVal.vstr "b")]], true⟩])).total
          = (syncLiveClicks [⟨.ok [[("clickId", PyVal.vstr "a")]], true⟩]).total + tn)
    ∧ (syncLiveVisits ([⟨.ok [[("clickId", PyVal.vstr "a")]], true⟩] ++ [(⟨.ok [[("clickId", PyVal.vstr "c")]], false⟩ : CampaignRun)])).batches = (syncLiveVisits [⟨.ok [[("clickId", PyVal.vstr "a")]], true⟩]).batches
    ∧ (syncLiveVisits ([⟨.ok [[("clickId", PyVal.vstr "a")]], true⟩] ++ [(⟨.ok [[("clickId", PyVal.vstr "c")]], false⟩ : CampaignRun)])).total = (syncLiveVisits [⟨.ok [[("clickId", PyVal.vstr "a")]], true⟩]).total
    ∧ (syncLiveClicks ([⟨.ok [[("clickId", PyVal.vstr "a")]], true⟩] ++ [(⟨.ok [[("clickId", PyVal.vstr "c")]], false⟩ : CampaignRun)])).batches = (syncLiveClicks [⟨.ok [[("clickId", PyVal.vstr "a")]], true⟩]).batches
    ∧ (syncLiveClicks ([⟨.ok [[("clickId", PyVal.vstr "a")]], true⟩] ++ [(⟨.ok [[("clickId", PyVal.vstr "c")]], false⟩ : CampaignRun)])).total = (syncLiveClicks [⟨.ok [[("clickId", PyVal.vstr "a")]], true⟩]).total :=
  c4_campaign_error_isolation [⟨.ok [[("clickId", PyVal.vstr "a")]], true⟩]
    [⟨.ok [[("clickId", PyVal.vstr "b")]], true⟩] ⟨.error (), true⟩
    ⟨.ok [[("clickId", PyVal.vstr "c")]], false⟩ rfl rfl

/-- Witness for C10 at a one-campaign run with a truthy click id. -/
theorem c10_click_id_required_witness :
    pyTruthy (transformVisit [("clickId", PyVal.vstr "a")]).click_id = true :=
  (c10_click_id_required [⟨.ok [[("clickId", PyVal.vstr "a")]], true⟩] [] "" []
      (fun _ => false) 1 0).1
    [transformVisit [("clickId", PyVal.vstr "a")]] (by decide)
    (transformVisit [("clickId", PyVal.vstr "a")]) (by decide)
